import Mathlib

/-!
# Verification of the dudamel-plugin storage/adapter layer

Shallow embedding of the semantic-memory store of this repository:

* `LibsqlAdapter` (native vector-column backend, `hooks`/`src/db-libsql.js`),
* `SqliteVecAdapter` (legacy side-table backend, `src/db-sqlite-vec.js`
  and the equivalent `src/db.js` functions),
* the one-shot migration script (`migrateFromDb`) and the startup
  auto-migration (`_autoMigrate` in `src/db.js`).

Embeddings are modelled as lists of rationals; SQL statements become pure
functions on explicit store values; the approximate-nearest-neighbour
primitives (`vector_top_k`, vec0 `MATCH ... AND k = ?`) are modelled as
"sort all indexed rows by cosine distance, ties broken by physical row
order, and take the first k".  Timestamps are naturals.  Fallible SQL
(CHECK constraints) returns `Except String`.
-/

namespace Dude

/-- Embedding vectors (the source uses `Float32Array`; we use rationals). -/
abbrev Vec := List ℚ

/-- Dot product of two vectors, as computed by `_computeSimilarity`'s loop
(`for i; dot += q[i] * stored[i]`): pointwise products, summed; a length
mismatch truncates to the shorter list, as the JS loop reads `undefined`
past the end only when the query is longer, which does not occur. -/
def dot (xs ys : Vec) : ℚ := (List.zipWith (· * ·) xs ys).sum

theorem dot_nil_right (xs : Vec) : dot xs [] = 0 := by
  simp [dot]

theorem dot_cons (a b : ℚ) (xs ys : Vec) :
    dot (a :: xs) (b :: ys) = a * b + dot xs ys := by
  simp [dot]

theorem dot_self_nonneg (xs : Vec) : 0 ≤ dot xs xs := by
  induction xs with
  | nil => simp [dot]
  | cons a l ih =>
    rw [dot_cons]
    have := sq_nonneg a
    nlinarith

/-- Cauchy–Schwarz for list dot products. -/
theorem dot_sq_le (xs : Vec) : ∀ ys : Vec, dot xs ys ^ 2 ≤ dot xs xs * dot ys ys := by
  induction xs with
  | nil => intro ys; simp [dot]
  | cons a l ih =>
    intro ys
    cases ys with
    | nil => simp [dot]
    | cons b m =>
      rw [dot_cons, dot_cons, dot_cons]
      have hD := ih m
      have hX := dot_self_nonneg l
      have hY := dot_self_nonneg m
      rcases eq_or_lt_of_le hX with hX0 | hXpos
      · have hsq : dot l m ^ 2 ≤ 0 := by rw [← hX0] at hD; simpa using hD
        have hD0 : dot l m = 0 := by nlinarith [sq_nonneg (dot l m)]
        rw [hD0, ← hX0]
        nlinarith [mul_nonneg (sq_nonneg a) hY]
      · nlinarith [sq_nonneg (a * dot l m - b * dot l l),
          mul_nonneg (sq_nonneg a) (sub_nonneg.mpr hD),
          mul_nonneg hXpos.le (sub_nonneg.mpr hD)]

/-- For unit vectors the dot product is at most 1. -/
theorem dot_le_one {xs ys : Vec} (hx : dot xs xs = 1) (hy : dot ys ys = 1) :
    dot xs ys ≤ 1 := by
  have h := dot_sq_le xs ys
  rw [hx, hy] at h
  nlinarith [sq_nonneg (dot xs ys - 1)]

/-- For unit vectors the dot product is at least -1. -/
theorem neg_one_le_dot {xs ys : Vec} (hx : dot xs xs = 1) (hy : dot ys ys = 1) :
    -1 ≤ dot xs ys := by
  have h := dot_sq_le xs ys
  rw [hx, hy] at h
  nlinarith [sq_nonneg (dot xs ys + 1)]

/-- Valid record kinds: the `CHECK (kind IN ('issue','spec','arch','update'))`
constraint of the `record` table. -/
def validKind (k : String) : Bool :=
  k == "issue" || k == "spec" || k == "arch" || k == "update"

/-- Valid record statuses: the
`CHECK (status IN ('open','resolved','archived'))` constraint. -/
def validStatus (st : String) : Bool :=
  st == "open" || st == "resolved" || st == "archived"

/-- Row of the `project` table (timestamps are irrelevant to the claims and
omitted). -/
structure Project where
  id : ℕ
  name : String
deriving DecidableEq, Repr

/-- Row of the libsql `record` table: the embedding is an `F32_BLOB(384)`
column directly on the row (nullable). -/
structure LRecord where
  id : ℕ
  project_id : ℕ
  kind : String
  title : String
  body : String
  status : String
  embedding : Option Vec
  created_at : ℕ
  updated_at : ℕ
deriving DecidableEq, Repr

/-- The libsql database: `project` and `record` tables plus the
AUTOINCREMENT counter for `record.id`. -/
structure LStore where
  projects : List Project
  records : List LRecord
  nextId : ℕ
deriving DecidableEq, Repr

/-- Tag every element of a list with its physical position, starting at `n`.
Used to model the deterministic tie-break of the vector index: rows at equal
distance are returned in row order. -/
def tagIdx : ℕ → List α → List (ℕ × α)
  | _, [] => []
  | n, a :: l => (n, a) :: tagIdx (n + 1) l

@[simp] theorem tagIdx_nil (n : ℕ) : tagIdx n ([] : List α) = [] := rfl

@[simp] theorem tagIdx_cons (n : ℕ) (a : α) (l : List α) :
    tagIdx n (a :: l) = (n, a) :: tagIdx (n + 1) l := rfl

theorem tagIdx_append (n : ℕ) (l l' : List α) :
    tagIdx n (l ++ l') = tagIdx n l ++ tagIdx (n + l.length) l' := by
  induction l generalizing n with
  | nil => simp
  | cons a t ih =>
    simp only [List.cons_append, tagIdx_cons, List.length_cons, ih (n + 1)]
    have h1 : n + 1 + t.length = n + (t.length + 1) := by omega
    rw [h1]

@[simp] theorem map_snd_tagIdx (n : ℕ) (l : List α) :
    (tagIdx n l).map Prod.snd = l := by
  induction l generalizing n with
  | nil => rfl
  | cons a t ih => simp [ih]

@[simp] theorem countP_tagIdx (n : ℕ) (l : List α) (p : α → Bool) :
    (tagIdx n l).countP (fun z => p z.2) = l.countP p := by
  induction l generalizing n with
  | nil => rfl
  | cons a t ih => simp [List.countP_cons, ih]

theorem mem_tagIdx_bounds {n : ℕ} {l : List α} {z : ℕ × α}
    (h : z ∈ tagIdx n l) : n ≤ z.1 ∧ z.1 < n + l.length := by
  induction l generalizing n with
  | nil => simp at h
  | cons a t ih =>
    rcases List.mem_cons.mp h with h | h
    · simp [h]
    · have := ih h
      simp only [List.length_cons]
      omega

theorem snd_mem_of_mem_tagIdx {n : ℕ} {l : List α} {z : ℕ × α}
    (h : z ∈ tagIdx n l) : z.2 ∈ l := by
  have : z.2 ∈ (tagIdx n l).map Prod.snd := List.mem_map_of_mem Prod.snd h
  simpa using this

theorem tagIdx_map (n : ℕ) (l : List α) (f : α → β) :
    tagIdx n (l.map f) = (tagIdx n l).map (Prod.map id f) := by
  induction l generalizing n with
  | nil => rfl
  | cons a t ih => simp [ih]

/-- Members of `tagIdx` with equal indices are equal. -/
theorem tagIdx_inj_fst {n : ℕ} {l : List α} {z w : ℕ × α}
    (hz : z ∈ tagIdx n l) (hw : w ∈ tagIdx n l) (h : z.1 = w.1) : z = w := by
  induction l generalizing n with
  | nil => simp at hz
  | cons a t ih =>
    rcases List.mem_cons.mp hz with hz | hz <;> rcases List.mem_cons.mp hw with hw | hw
    · rw [hz, hw]
    · subst hz
      have := (mem_tagIdx_bounds hw).1
      omega
    · subst hw
      have := (mem_tagIdx_bounds hz).1
      omega
    · exact ih hz hw

/-- Model of `LibsqlAdapter._computeSimilarity`: dot product of the query
with the stored embedding; `0` when the stored blob is absent/unparsable. -/
def computeSimilarity (q : Vec) (stored : Option Vec) : ℚ :=
  match stored with
  | none => 0
  | some v => dot q v

/-- Cosine distance of a record's stored embedding to the query, as used by
the `metric=cosine` vector index (`1 - similarity`; embeddings are
unit-normalised). -/
def cosDist (e : Vec) (r : LRecord) : ℚ := 1 - computeSimilarity e r.embedding

/-- Index order of the vector index: ascending cosine distance, ties broken
by physical row position (deterministic model of the unspecified tie-break). -/
def candLe (e : Vec) (a b : ℕ × LRecord) : Prop :=
  cosDist e a.2 < cosDist e b.2 ∨ (cosDist e a.2 = cosDist e b.2 ∧ a.1 ≤ b.1)

/-- Strict version of `candLe`. -/
def candLt (e : Vec) (a b : ℕ × LRecord) : Prop :=
  cosDist e a.2 < cosDist e b.2 ∨ (cosDist e a.2 = cosDist e b.2 ∧ a.1 < b.1)

instance (e : Vec) : DecidableRel (candLe e) := fun a b => by
  unfold candLe; infer_instance

instance (e : Vec) : DecidableRel (candLt e) := fun a b => by
  unfold candLt; infer_instance

instance (e : Vec) : IsTotal (ℕ × LRecord) (candLe e) := by
  constructor
  intro a b
  unfold candLe
  rcases lt_trichotomy (cosDist e a.2) (cosDist e b.2) with h | h | h
  · exact Or.inl (Or.inl h)
  · rcases Nat.le_total a.1 b.1 with h2 | h2
    · exact Or.inl (Or.inr ⟨h, h2⟩)
    · exact Or.inr (Or.inr ⟨h.symm, h2⟩)
  · exact Or.inr (Or.inl h)

instance (e : Vec) : IsTrans (ℕ × LRecord) (candLe e) := by
  constructor
  intro a b c hab hbc
  unfold candLe at *
  rcases hab with h1 | ⟨h1, h1'⟩ <;> rcases hbc with h2 | ⟨h2, h2'⟩
  · exact Or.inl (h1.trans h2)
  · exact Or.inl (h2 ▸ h1)
  · exact Or.inl (h1 ▸ h2)
  · exact Or.inr ⟨h1.trans h2, h1'.trans h2'⟩

theorem candLt_asymm {e : Vec} {a b : ℕ × LRecord}
    (h : candLt e a b) : ¬ candLt e b a := by
  unfold candLt at *
  rcases h with h | ⟨h, h'⟩
  · rintro (h2 | ⟨h2, h2'⟩)
    · exact absurd (h.trans h2) (lt_irrefl _)
    · rw [h2] at h
      exact lt_irrefl _ h
  · rintro (h2 | ⟨h2, h2'⟩)
    · rw [h] at h2
      exact lt_irrefl _ h2
    · omega

theorem candLe_of_candLt {e : Vec} {a b : ℕ × LRecord}
    (h : candLt e a b) : candLe e a b := by
  unfold candLt candLe at *
  rcases h with h | ⟨h, h'⟩
  · exact Or.inl h
  · exact Or.inr ⟨h, Nat.le_of_lt h'⟩

theorem candLt_of_candLe_ne {e : Vec} {a b : ℕ × LRecord}
    (h : candLe e a b) (hne : a.1 ≠ b.1) : candLt e a b := by
  unfold candLe at h
  unfold candLt
  rcases h with h | ⟨h, h'⟩
  · exact Or.inl h
  · exact Or.inr ⟨h, lt_of_le_of_ne h' hne⟩

/-- Rows present in the vector index: records whose `embedding` column is
non-NULL, tagged with their physical position. -/
def entries (l : List LRecord) : List (ℕ × LRecord) :=
  tagIdx 0 (l.filter (fun r => r.embedding.isSome))

/-- The vector index scan: all indexed rows sorted by (distance, position). -/
def sortedEntries (e : Vec) (l : List LRecord) : List (ℕ × LRecord) :=
  (entries l).insertionSort (candLe e)

/-- Model of libsql's `vector_top_k('idx_record_embedding', vector(?), k)`:
the k nearest indexed rows (position-tagged). -/
def vectorTopK (e : Vec) (k : ℕ) (l : List LRecord) : List (ℕ × LRecord) :=
  (sortedEntries e l).take k

/-- The rows returned by `vector_top_k` joined back to `record` rows. -/
def vectorTopKRecs (e : Vec) (k : ℕ) (l : List LRecord) : List LRecord :=
  (vectorTopK e k l).map Prod.snd

theorem map_fst_tagIdx (n : ℕ) (l : List α) :
    (tagIdx n l).map Prod.fst = List.range' n l.length := by
  induction l generalizing n with
  | nil => rfl
  | cons a t ih => simp [List.range'_succ, ih]

theorem nodup_fst_entries (l : List LRecord) :
    ((entries l).map Prod.fst).Nodup := by
  rw [entries, map_fst_tagIdx]
  exact List.nodup_range' _ _

theorem perm_sortedEntries (e : Vec) (l : List LRecord) :
    List.Perm (sortedEntries e l) (entries l) :=
  (entries l).perm_insertionSort (candLe e)

theorem pairwise_candLe_sortedEntries (e : Vec) (l : List LRecord) :
    (sortedEntries e l).Pairwise (candLe e) :=
  List.sorted_insertionSort (candLe e) (entries l)

theorem pairwise_candLt_sortedEntries (e : Vec) (l : List LRecord) :
    (sortedEntries e l).Pairwise (candLt e) := by
  have h1 := pairwise_candLe_sortedEntries e l
  have hperm : List.Perm ((sortedEntries e l).map Prod.fst) ((entries l).map Prod.fst) :=
    (perm_sortedEntries e l).map Prod.fst
  have h2 : ((sortedEntries e l).map Prod.fst).Nodup :=
    hperm.nodup_iff.mpr (nodup_fst_entries l)
  rw [List.Nodup, List.pairwise_map] at h2
  exact (h1.and h2).imp fun h => candLt_of_candLe_ne h.1 h.2

/-- A row whose strict predecessors number fewer than `k` is within the
first `k` rows of a strictly ordered list. -/
theorem mem_take_of_countP_lt {e : Vec} :
    ∀ {l : List (ℕ × LRecord)} {a : ℕ × LRecord} {k : ℕ},
      l.Pairwise (candLt e) → a ∈ l →
      l.countP (fun z => decide (candLt e z a)) < k → a ∈ l.take k := by
  intro l
  induction l with
  | nil => intro a k _ ha; simp at ha
  | cons h t ih =>
    intro a k hpw ha hcount
    cases k with
    | zero => omega
    | succ k =>
      rcases List.mem_cons.mp ha with rfl | ha
      · simp [List.take_cons]
      · have hha : candLt e h a := (List.pairwise_cons.mp hpw).1 a ha
        have hcnt : t.countP (fun z => decide (candLt e z a)) < k := by
          rw [List.countP_cons] at hcount
          simp [hha] at hcount
          omega
        exact List.mem_cons_of_mem _ (ih (List.pairwise_cons.mp hpw).2 ha hcnt)

/-- In a strictly ordered list, `find?` returns a given member if it
satisfies the predicate and no strictly smaller member does. -/
theorem find?_eq_some_first {e : Vec} {p : (ℕ × LRecord) → Bool} :
    ∀ {l : List (ℕ × LRecord)} {a : ℕ × LRecord},
      l.Pairwise (candLt e) → a ∈ l → p a = true →
      (∀ z ∈ l, candLt e z a → p z = false) → l.find? p = some a := by
  intro l
  induction l with
  | nil => intro a _ ha; simp at ha
  | cons h t ih =>
    intro a hpw ha hpa hmin
    rcases List.mem_cons.mp ha with rfl | ha
    · simp [List.find?_cons, hpa]
    · have hha : candLt e h a := (List.pairwise_cons.mp hpw).1 a ha
      have hph : p h = false := hmin h (List.mem_cons_self h t) hha
      rw [List.find?_cons, hph]
      exact ih (List.pairwise_cons.mp hpw).2 ha hpa
        (fun z hz => hmin z (List.mem_cons_of_mem _ hz))

/-- In a strictly ordered list, everything strictly below the row returned
by `find?` fails the predicate. -/
theorem find?_none_below {e : Vec} {p : (ℕ × LRecord) → Bool} :
    ∀ {l : List (ℕ × LRecord)} {y : ℕ × LRecord},
      l.Pairwise (candLt e) → l.find? p = some y →
      ∀ z ∈ l, candLt e z y → p z = false := by
  intro l
  induction l with
  | nil => intro y _ hf; simp at hf
  | cons h t ih =>
    intro y hpw hf z hz hlt
    rw [List.find?_cons] at hf
    cases hph : p h with
    | true =>
      rw [hph] at hf
      have hy : h = y := by simpa using hf
      rcases List.mem_cons.mp hz with rfl | hz
      · exact absurd (hy ▸ hlt) (fun c => candLt_asymm c c)
      · have : candLt e h z := (List.pairwise_cons.mp hpw).1 z hz
        exact absurd hlt (hy ▸ candLt_asymm this)
    | false =>
      rw [hph] at hf
      rcases List.mem_cons.mp hz with rfl | hz
      · exact hph
      · exact ih (List.pairwise_cons.mp hpw).2 hf z hz hlt

/-- Table-level CHECK constraints of the `record` table, evaluated on a row
(`kind IN (...)` and `status IN (...)`; `title TEXT NOT NULL` is always
satisfied by a string value, even the empty one). -/
def checkRow (r : LRecord) : Bool := validKind r.kind && validStatus r.status

/-- SQL `UPDATE record SET ... WHERE cond`: rewrites every matching row,
failing (with no change) if an updated row violates a CHECK constraint. -/
def sqlUpdate (cond : LRecord → Bool) (f : LRecord → LRecord)
    (l : List LRecord) : Except String (List LRecord) :=
  if l.all (fun r => !cond r || checkRow (f r)) then
    .ok (l.map (fun r => if cond r then f r else r))
  else .error "CHECK constraint failed: record"

/-- SQL `INSERT INTO record ...`: appends the row, failing if it violates a
CHECK constraint. -/
def sqlInsert (r : LRecord) (l : List LRecord) : Except String (List LRecord) :=
  if checkRow r then .ok (l ++ [r]) else .error "CHECK constraint failed: record"

/-- Lookup of a project row by id (`JOIN project p ON r.project_id = p.id`). -/
def lookupProject (s : LStore) (pid : ℕ) : Option Project :=
  s.projects.find? (fun p => decide (p.id = pid))

/-- Wire shape of a record returned by `get` (RECORD_COLS plus
`p.name AS project`; the embedding blob is not selected). -/
structure RecordOut where
  id : ℕ
  project_id : ℕ
  kind : String
  title : String
  body : String
  status : String
  created_at : ℕ
  updated_at : ℕ
  project : String
deriving DecidableEq, Repr

/-- Model of `LibsqlAdapter.get`: the record joined to its project, or
`null`. -/
def LibsqlAdapter.get (s : LStore) (id2 : ℕ) : Option RecordOut :=
  match s.records.find? (fun r => decide (r.id = id2)) with
  | none => none
  | some r =>
    match lookupProject s r.project_id with
    | none => none
    | some p =>
      some { id := r.id, project_id := r.project_id, kind := r.kind,
             title := r.title, body := r.body, status := r.status,
             created_at := r.created_at, updated_at := r.updated_at,
             project := p.name }

/-- A search result row: record fields (embedding stripped), project name
and the boosted similarity. -/
structure Hit where
  id : ℕ
  project_id : ℕ
  kind : String
  title : String
  body : String
  status : String
  created_at : ℕ
  updated_at : ℕ
  project : String
  similarity : ℚ
deriving DecidableEq, Repr

/-- Descending order on boosted similarity
(`.sort((a, b) => b.similarity - a.similarity)`, a stable sort). -/
def simGe (a b : Hit) : Prop := b.similarity ≤ a.similarity

instance : DecidableRel simGe := fun a b => by unfold simGe; infer_instance

instance : IsTotal Hit simGe := ⟨fun a b => le_total b.similarity a.similarity⟩

instance : IsTrans Hit simGe := ⟨fun _ _ _ hab hbc => le_trans hbc hab⟩

/-- The `kind` filter appended to the search query when `kind` is truthy
and not `'all'` (`if (kind && kind !== 'all')`). -/
def searchKindFilter (kind? : Option String) (rows : List (LRecord × String)) :
    List (LRecord × String) :=
  match kind? with
  | some kd =>
    if kd ≠ "" ∧ kd ≠ "all" then rows.filter (fun rp => decide (rp.1.kind = kd))
    else rows
  | none => rows

/-- Model of `LibsqlAdapter.search`: 3x-oversampled `vector_top_k`
candidates, joined to projects, optionally kind-filtered, scored by dot
product with a +0.1 same-project boost capped at 1.0, floored at 0.3,
sorted by boosted similarity descending and truncated to `limit` with the
embedding stripped. -/
def LibsqlAdapter.search (s : LStore) (cur : Project) (e : Vec)
    (kind? : Option String) (limit : ℕ) : List Hit :=
  let cands := vectorTopKRecs e (limit * 3) s.records
  let joined := cands.filterMap
    (fun r => (lookupProject s r.project_id).map (fun p => (r, p.name)))
  let rows := (searchKindFilter kind? joined).map (fun rp =>
    let sim := computeSimilarity e rp.1.embedding
    let boosted := if rp.2 = cur.name then min 1 (sim + 1/10) else sim
    ({ id := rp.1.id, project_id := rp.1.project_id, kind := rp.1.kind,
       title := rp.1.title, body := rp.1.body, status := rp.1.status,
       created_at := rp.1.created_at, updated_at := rp.1.updated_at,
       project := rp.2, similarity := boosted } : Hit))
  ((rows.filter (fun h => decide ((3 : ℚ)/10 ≤ h.similarity))).insertionSort
    simGe).take limit

/-- A fresh libsql record row as built by the INSERT of
`LibsqlAdapter.upsert`. -/
def lNewRecord (id2 proj : ℕ) (kind title body status : String) (e : Vec)
    (now : ℕ) : LRecord :=
  { id := id2, project_id := proj, kind := kind, title := title,
    body := body, status := status, embedding := some e,
    created_at := now, updated_at := now }

/-- The dedup candidate query of `LibsqlAdapter.upsert`: `vector_top_k`
with k=5 over the whole index, joined to `record`, then filtered by
`WHERE r.project_id = ? AND r.kind = ?`. -/
def dedupCandidates (s : LStore) (e : Vec) (proj : ℕ) (kind : String) :
    List LRecord :=
  (vectorTopKRecs e 5 s.records).filter
    (fun r => decide (r.project_id = proj) && decide (r.kind = kind))

/-- The column overwrite performed on a dedup match
(`UPDATE record SET title, body, status, embedding, updated_at`). -/
def dedupOverwrite (title body status : String) (e : Vec) (now : ℕ)
    (r : LRecord) : LRecord :=
  { r with
    title := title, body := body, status := status,
    embedding := some e, updated_at := now }

/-- The column overwrite performed on an explicit-id update
(`UPDATE record SET kind, title, body, status, embedding, updated_at`). -/
def idOverwrite (kind title body status : String) (e : Vec) (now : ℕ)
    (r : LRecord) : LRecord :=
  { r with
    kind := kind, title := title, body := body, status := status,
    embedding := some e, updated_at := now }

/-- The no-explicit-id path of `LibsqlAdapter.upsert`: dedup check against
the 5 nearest neighbours (filtered to the same project and kind); the first
candidate with similarity at least 0.85 is overwritten in place, otherwise
a fresh row is inserted. -/
def LibsqlAdapter.upsertNoId (s : LStore) (proj : ℕ)
    (kind title body status : String) (e : Vec) (now : ℕ) :
    Except String (Option RecordOut) × LStore :=
  match (dedupCandidates s e proj kind).find?
      (fun r => decide ((17 : ℚ)/20 ≤ computeSimilarity e r.embedding)) with
  | some c =>
    match sqlUpdate (fun r => decide (r.id = c.id))
        (dedupOverwrite title body status e now) s.records with
    | .error msg => (.error msg, s)
    | .ok recs =>
      let s' := { s with records := recs }
      (.ok (LibsqlAdapter.get s' c.id), s')
  | none =>
    let newRec := lNewRecord s.nextId proj kind title body status e now
    match sqlInsert newRec s.records with
    | .error msg => (.error msg, s)
    | .ok recs =>
      let s' := { s with records := recs, nextId := s.nextId + 1 }
      (.ok (LibsqlAdapter.get s' newRec.id), s')

/-- Model of `LibsqlAdapter.upsert`.  A truthy explicit id takes the
in-place-update path (updating zero rows when the id matches nothing);
otherwise the dedup path runs.  `projectId ?? current.id` resolves the
owning project. -/
def LibsqlAdapter.upsert (s : LStore) (cur : Project) (id? : Option ℕ)
    (projectId? : Option ℕ) (kind title body status : String) (e : Vec)
    (now : ℕ) : Except String (Option RecordOut) × LStore :=
  let proj := projectId?.getD cur.id
  match id? with
  | some id2 =>
    if id2 ≠ 0 then
      match sqlUpdate (fun r => decide (r.id = id2))
          (idOverwrite kind title body status e now) s.records with
      | .error msg => (.error msg, s)
      | .ok recs =>
        let s' := { s with records := recs }
        (.ok (LibsqlAdapter.get s' id2), s')
    else LibsqlAdapter.upsertNoId s proj kind title body status e now
  | none => LibsqlAdapter.upsertNoId s proj kind title body status e now

/-- Row shape returned by `list`. -/
structure ListRow where
  id : ℕ
  kind : String
  title : String
  status : String
  updated_at : ℕ
  project : String
deriving DecidableEq, Repr

/-- Descending order on `updated_at` (`ORDER BY r.updated_at DESC`). -/
def updGe (a b : ListRow) : Prop := b.updated_at ≤ a.updated_at

instance : DecidableRel updGe := fun a b => by unfold updGe; infer_instance

instance : IsTotal ListRow updGe := ⟨fun a b => le_total b.updated_at a.updated_at⟩

instance : IsTrans ListRow updGe := ⟨fun _ _ _ hab hbc => le_trans hbc hab⟩

/-- Model of `LibsqlAdapter.list`: resolve the project filter (absent or
falsy or `'current'` means the current project; `'*'` or an unknown literal
name yields no restriction), then filter by kind/status unless `'all'`,
order by `updated_at` descending. -/
def LibsqlAdapter.list (s : LStore) (cur : Project)
    (kind? status? project? : Option String) : List ListRow :=
  let projectId : Option ℕ :=
    match project? with
    | none => some cur.id
    | some pn =>
      if pn = "" ∨ pn = "current" then some cur.id
      else if pn = "*" then none
      else (s.projects.find? (fun p => decide (p.name = pn))).map (·.id)
  let base := s.records.filterMap
    (fun r => (lookupProject s r.project_id).map (fun p => (r, p.name)))
  let afterProject :=
    match projectId with
    | some pid =>
      if pid ≠ 0 then
        base.filter (fun rp : LRecord × String => decide (rp.1.project_id = pid))
      else base
    | none => base
  let afterKind :=
    match kind? with
    | some kd =>
      if kd ≠ "" ∧ kd ≠ "all" then
        afterProject.filter (fun rp : LRecord × String => decide (rp.1.kind = kd))
      else afterProject
    | none => afterProject
  let afterStatus :=
    match status? with
    | some st =>
      if st ≠ "" ∧ st ≠ "all" then
        afterKind.filter (fun rp : LRecord × String => decide (rp.1.status = st))
      else afterKind
    | none => afterKind
  (afterStatus.map (fun rp : LRecord × String =>
    ({ id := rp.1.id, kind := rp.1.kind, title := rp.1.title,
       status := rp.1.status, updated_at := rp.1.updated_at,
       project := rp.2 } : ListRow))).insertionSort updGe

/-- Row of the legacy `record` table: no embedding column (embeddings live
in the vec0 side-table `record_embedding`). -/
structure SRecord where
  id : ℕ
  project_id : ℕ
  kind : String
  title : String
  body : String
  status : String
  created_at : ℕ
  updated_at : ℕ
deriving DecidableEq, Repr

/-- The legacy better-sqlite3 + sqlite-vec database: `project`, `record`,
and the vec0 virtual table `record_embedding(record_id, embedding)`, plus
the AUTOINCREMENT counter for `record.id`. -/
structure SStore where
  projects : List Project
  records : List SRecord
  record_embedding : List (ℕ × Vec)
  nextId : ℕ
deriving DecidableEq, Repr

/-- Cosine distance of a stored side-table embedding to the query, as
reported by the vec0 index (`distance_metric=cosine`, unit vectors). -/
def vDist (e v : Vec) : ℚ := 1 - dot e v

/-- Index order of the vec0 KNN scan: ascending distance, ties broken by
physical row position. -/
def vecLe (e : Vec) (a b : ℕ × (ℕ × Vec)) : Prop :=
  vDist e a.2.2 < vDist e b.2.2 ∨ (vDist e a.2.2 = vDist e b.2.2 ∧ a.1 ≤ b.1)

instance (e : Vec) : DecidableRel (vecLe e) := fun a b => by
  unfold vecLe; infer_instance

instance (e : Vec) : IsTotal (ℕ × (ℕ × Vec)) (vecLe e) := by
  constructor
  intro a b
  unfold vecLe
  rcases lt_trichotomy (vDist e a.2.2) (vDist e b.2.2) with h | h | h
  · exact Or.inl (Or.inl h)
  · rcases Nat.le_total a.1 b.1 with h2 | h2
    · exact Or.inl (Or.inr ⟨h, h2⟩)
    · exact Or.inr (Or.inr ⟨h.symm, h2⟩)
  · exact Or.inr (Or.inl h)

instance (e : Vec) : IsTrans (ℕ × (ℕ × Vec)) (vecLe e) := by
  constructor
  intro a b c hab hbc
  unfold vecLe at *
  rcases hab with h1 | ⟨h1, h1'⟩ <;> rcases hbc with h2 | ⟨h2, h2'⟩
  · exact Or.inl (h1.trans h2)
  · exact Or.inl (h2 ▸ h1)
  · exact Or.inl (h1 ▸ h2)
  · exact Or.inr ⟨h1.trans h2, h1'.trans h2'⟩

/-- Model of a vec0 KNN query `WHERE re.embedding MATCH ? AND k = ?`:
the k nearest side-table rows as `(record_id, distance)` pairs, in
distance order. -/
def vecMatchK (e : Vec) (k : ℕ) (t : List (ℕ × Vec)) : List (ℕ × ℚ) :=
  (((tagIdx 0 t).insertionSort (vecLe e)).take k).map
    (fun z => (z.2.1, vDist e z.2.2))

/-- Model of `SqliteVecAdapter._getRecord`
(`SELECT r.*, p.name AS project ... WHERE r.id = ?`). -/
def SqliteVecAdapter.getRecord (s : SStore) (id2 : ℕ) : Option RecordOut :=
  match s.records.find? (fun r => decide (r.id = id2)) with
  | none => none
  | some r =>
    match s.projects.find? (fun p => decide (p.id = r.project_id)) with
    | none => none
    | some p =>
      some { id := r.id, project_id := r.project_id, kind := r.kind,
             title := r.title, body := r.body, status := r.status,
             created_at := r.created_at, updated_at := r.updated_at,
             project := p.name }

/-- CHECK constraints of the legacy `record` table (identical enumeration
to the libsql one; empty titles pass `NOT NULL`). -/
def sCheckRow (r : SRecord) : Bool := validKind r.kind && validStatus r.status

/-- SQL `UPDATE record SET ... WHERE cond` on the legacy table. -/
def sRecUpdate (cond : SRecord → Bool) (f : SRecord → SRecord)
    (l : List SRecord) : Except String (List SRecord) :=
  if l.all (fun r => !cond r || sCheckRow (f r)) then
    .ok (l.map (fun r => if cond r then f r else r))
  else .error "CHECK constraint failed: record"

/-- SQL `INSERT INTO record ...` on the legacy table. -/
def sRecInsert (r : SRecord) (l : List SRecord) :
    Except String (List SRecord) :=
  if sCheckRow r then .ok (l ++ [r]) else .error "CHECK constraint failed: record"

/-- Delete-then-reinsert of a side-table embedding (vec0 has no UPDATE):
`DELETE FROM record_embedding WHERE record_id = ?` followed by
`INSERT INTO record_embedding (record_id, embedding) VALUES (?, ?)`. -/
def replaceEmbedding (id2 : ℕ) (e : Vec) (t : List (ℕ × Vec)) :
    List (ℕ × Vec) :=
  t.filter (fun z => !decide (z.1 = id2)) ++ [(id2, e)]

/-- A fresh legacy record row as built by the INSERT of
`SqliteVecAdapter.upsert`. -/
def sNewRecord (id2 proj : ℕ) (kind title body status : String) (now : ℕ) :
    SRecord :=
  { id := id2, project_id := proj, kind := kind, title := title,
    body := body, status := status, created_at := now, updated_at := now }

/-- The body of the `SqliteVecAdapter.upsert` transaction.  Any error
aborts the transaction (see `SqliteVecAdapter.upsert`). -/
def SqliteVecAdapter.upsertTx (s : SStore) (cur : Project) (id? : Option ℕ)
    (projectId? : Option ℕ) (kind title body status : String) (e : Vec)
    (now : ℕ) : Except String (Option RecordOut × SStore) :=
  let proj := projectId?.getD cur.id
  let noId : Except String (Option RecordOut × SStore) :=
    let candidates :=
      ((vecMatchK e 5 s.record_embedding).filterMap (fun rd =>
        (s.records.find? (fun r => decide (r.id = rd.1))).map
          (fun r => (rd, r)))).filter
        (fun t => decide (t.2.project_id = proj) && decide (t.2.kind = kind))
    match candidates.head? with
    | some t =>
      if t.1.2 ≤ (3 : ℚ)/20 then
        match sRecUpdate (fun r => decide (r.id = t.1.1))
            (fun r => { r with
              title := title, body := body, status := status,
              updated_at := now }) s.records with
        | .error msg => .error msg
        | .ok recs =>
          let s' := { s with
            records := recs,
            record_embedding := replaceEmbedding t.1.1 e s.record_embedding }
          .ok (SqliteVecAdapter.getRecord s' t.1.1, s')
      else
        match sRecInsert (sNewRecord s.nextId proj kind title body status now)
            s.records with
        | .error msg => .error msg
        | .ok recs =>
          let s' := { s with
            records := recs,
            record_embedding := s.record_embedding ++ [(s.nextId, e)],
            nextId := s.nextId + 1 }
          .ok (SqliteVecAdapter.getRecord s' s.nextId, s')
    | none =>
      match sRecInsert (sNewRecord s.nextId proj kind title body status now)
          s.records with
      | .error msg => .error msg
      | .ok recs =>
        let s' := { s with
          records := recs,
          record_embedding := s.record_embedding ++ [(s.nextId, e)],
          nextId := s.nextId + 1 }
        .ok (SqliteVecAdapter.getRecord s' s.nextId, s')
  match id? with
  | some id2 =>
    if id2 ≠ 0 then
      match sRecUpdate (fun r => decide (r.id = id2))
          (fun r => { r with
            kind := kind, title := title, body := body, status := status,
            updated_at := now }) s.records with
      | .error msg => .error msg
      | .ok recs =>
        let s' := { s with
          records := recs,
          record_embedding := replaceEmbedding id2 e s.record_embedding }
        .ok (SqliteVecAdapter.getRecord s' id2, s')
    else noId
  | none => noId

/-- Model of `SqliteVecAdapter.upsert`: the transaction body, rolled back
entirely on error (better-sqlite3 `db.transaction`). -/
def SqliteVecAdapter.upsert (s : SStore) (cur : Project) (id? : Option ℕ)
    (projectId? : Option ℕ) (kind title body status : String) (e : Vec)
    (now : ℕ) : Except String (Option RecordOut) × SStore :=
  match SqliteVecAdapter.upsertTx s cur id? projectId? kind title body status
      e now with
  | .error msg => (.error msg, s)
  | .ok (r, s') => (.ok r, s')

/-- Counts reported by the migration script. -/
structure MigrationStats where
  projects : ℕ
  records : ℕ
  embeddings : ℕ
deriving DecidableEq, Repr

/-- Conversion of one legacy record row for migration: the embedding is
looked up in the vec0 side-table and inserted NULL when absent. -/
def migrateRecord (oldEmb : List (ℕ × Vec)) (r : SRecord) : LRecord :=
  { id := r.id, project_id := r.project_id, kind := r.kind,
    title := r.title, body := r.body, status := r.status,
    embedding := (oldEmb.find? (fun z => decide (z.1 = r.id))).map (·.2),
    created_at := r.created_at, updated_at := r.updated_at }

/-- Model of `migrateFromDb` (scripts/migrate-to-libsql.js): copy every
project row verbatim, copy every record row with its side-table embedding
(or NULL), and report `(projects, records, embeddings)` counts.  The
source store is only read. -/
def migrateFromDb (oldDb : SStore) : LStore × MigrationStats :=
  let newRecords := oldDb.records.map (migrateRecord oldDb.record_embedding)
  let embeddingCount := oldDb.records.countP (fun r =>
    (oldDb.record_embedding.find? (fun z => decide (z.1 = r.id))).isSome)
  ({ projects := oldDb.projects, records := newRecords,
     nextId := (newRecords.map (·.id)).foldr max 0 + 1 },
   { projects := oldDb.projects.length, records := oldDb.records.length,
     embeddings := embeddingCount })

/-- On-disk state inspected by the startup backend selector: contents of
the legacy store file `dude.db`, its `.backup`, and the native store file
`dude-libsql.db` (`none` = file absent). -/
structure FsState where
  oldDb : Option SStore
  oldBackup : Option SStore
  newDb : Option LStore
deriving DecidableEq, Repr

/-- Model of `_autoMigrate` (src/db.js) from the point where the migration
module has loaded.  `migrateResult` is the outcome of
`migrate(OLD_DB, 'file:' + NEW_DB)`: either stats with the fully-written
native store, or a thrown error, in which case `partialNew` is whatever
partially-written native store file the failed run left on disk.  On
failure the partial native file is unlinked and the error re-thrown
wrapped in guidance; on success the legacy file is renamed to `.backup`. -/
def autoMigrate (fs : FsState)
    (migrateResult : Except String (LStore × MigrationStats))
    (partialNew : Option LStore) : Except String MigrationStats × FsState :=
  match migrateResult with
  | .error e =>
    let fsFail := { fs with newDb := partialNew }
    let fsClean := { fsFail with newDb := none }
    (.error ("Database migration failed. Old database preserved at dude.db. Error: " ++ e),
     fsClean)
  | .ok (st, stats) =>
    (.ok stats,
     { oldDb := none, oldBackup := fs.oldDb, newDb := some st })

/-- Statement-boundary states of the no-explicit-id path of
`LibsqlAdapter.upsert`: before any statement, after the candidate SELECT,
after the single write (dedup UPDATE or INSERT) when it succeeds, and
after the final `get` SELECT. -/
def LibsqlAdapter.upsertTraceNoId (s : LStore) (proj : ℕ)
    (kind title body status : String) (e : Vec) (now : ℕ) : List LStore :=
  match (dedupCandidates s e proj kind).find?
      (fun r => decide ((17 : ℚ)/20 ≤ computeSimilarity e r.embedding)) with
  | some c =>
    match sqlUpdate (fun r => decide (r.id = c.id))
        (dedupOverwrite title body status e now) s.records with
    | .error _ => [s, s]
    | .ok recs =>
      [s, s, { s with records := recs }, { s with records := recs }]
  | none =>
    match sqlInsert (lNewRecord s.nextId proj kind title body status e now)
        s.records with
    | .error _ => [s, s]
    | .ok recs =>
      [s, s, { s with records := recs, nextId := s.nextId + 1 },
       { s with records := recs, nextId := s.nextId + 1 }]

/-- The persisted-store states visible at successive statement boundaries
of one `LibsqlAdapter.upsert` call.  The libsql adapter issues its
statements without a wrapping transaction; if a statement fails, the
persisted store is the state at the preceding boundary (individual SQL
statements are atomic).  The head is the state before any statement, and
entries follow each completed statement (SELECTs included). -/
def LibsqlAdapter.upsertTrace (s : LStore) (cur : Project) (id? : Option ℕ)
    (projectId? : Option ℕ) (kind title body status : String) (e : Vec)
    (now : ℕ) : List LStore :=
  let proj := projectId?.getD cur.id
  match id? with
  | some id2 =>
    if id2 ≠ 0 then
      match sqlUpdate (fun r => decide (r.id = id2))
          (idOverwrite kind title body status e now) s.records with
      | .error _ => [s]
      | .ok recs =>
        [s, { s with records := recs }, { s with records := recs }]
    else LibsqlAdapter.upsertTraceNoId s proj kind title body status e now
  | none => LibsqlAdapter.upsertTraceNoId s proj kind title body status e now

/-- Decidable equality for `Except`, so witness statements about adapter
results can be settled by `decide`. -/
instance {ε α : Type} [DecidableEq ε] [DecidableEq α] :
    DecidableEq (Except ε α) := fun a b =>
  match a, b with
  | .error e1, .error e2 =>
    if h : e1 = e2 then isTrue (congrArg Except.error h)
    else isFalse (fun hc => h (Except.error.inj hc))
  | .error _, .ok _ => isFalse (fun hc => Except.noConfusion hc)
  | .ok _, .error _ => isFalse (fun hc => Except.noConfusion hc)
  | .ok a1, .ok a2 =>
    if h : a1 = a2 then isTrue (congrArg Except.ok h)
    else isFalse (fun hc => h (Except.ok.inj hc))

/-! ## Concrete example data (used by witnesses and counterexamples) -/

/-- Record builder for examples. -/
def mkLRecord (id2 pid : ℕ) (kind title : String) (emb : Option Vec)
    (t : ℕ) : LRecord :=
  { id := id2, project_id := pid, kind := kind, title := title, body := "",
    status := "open", embedding := emb, created_at := t, updated_at := t }

/-- Example project "alpha" (the current one in examples). -/
def exProjA : Project := { id := 1, name := "alpha" }

/-- Example project "beta". -/
def exProjB : Project := { id := 2, name := "beta" }

/-- A rational unit vector. -/
def exV1 : Vec := [1, 0]

/-- A rational unit vector at cosine similarity 7/25 = 0.28 to `exV1`. -/
def exV28 : Vec := [7/25, 24/25]

/-- A rational unit vector at cosine similarity 24/25 = 0.96 to `exV1`. -/
def exV96 : Vec := [24/25, 7/25]

/-- Store with one record in each of two projects. -/
def c9Store : LStore :=
  { projects := [exProjA, exProjB],
    records := [mkLRecord 1 1 "issue" "a" none 10,
                mkLRecord 2 2 "issue" "b" none 20],
    nextId := 3 }

/-- Legacy record builder for examples. -/
def mkSRecord (id2 pid : ℕ) (kind title : String) (t : ℕ) : SRecord :=
  { id := id2, project_id := pid, kind := kind, title := title, body := "",
    status := "open", created_at := t, updated_at := t }

/-- Migration-source store of the spec's end-to-end scenario: one project,
three records, two of them with an embedding row (record 3 is orphaned). -/
def c7Store : SStore :=
  { projects := [exProjA],
    records := [mkSRecord 1 1 "issue" "a" 10, mkSRecord 2 1 "spec" "b" 20,
                mkSRecord 3 1 "arch" "c" 30],
    record_embedding := [(1, exV1), (2, exV96)],
    nextId := 4 }

/-- Store with a single current-project record whose raw similarity to
`exV1` is 0.28. -/
def c2Store : LStore :=
  { projects := [exProjA],
    records := [mkLRecord 1 1 "issue" "a" (some exV28) 10],
    nextId := 2 }

/-- Store with a single current-project record whose raw similarity to
`exV1` is 0.96. -/
def c6Store : LStore :=
  { projects := [exProjA],
    records := [mkLRecord 1 1 "issue" "a" (some exV96) 10],
    nextId := 2 }

/-- The hit returned by searching `c6Store` with `exV1`: boosted
similarity capped at exactly 1. -/
def c6Hit : Hit :=
  { id := 1, project_id := 1, kind := "issue", title := "a", body := "",
    status := "open", created_at := 10, updated_at := 10,
    project := "alpha", similarity := 1 }

/-- Empty legacy store. -/
def c5SStore : SStore :=
  { projects := [exProjA], records := [], record_embedding := [],
    nextId := 1 }

/-- Store whose five beta-project rows are strictly nearer to `exV1` than
the current-project row of similarity 0.96. -/
def c3Store : LStore :=
  { projects := [exProjA, exProjB],
    records := [mkLRecord 1 2 "issue" "b1" (some exV1) 1,
                mkLRecord 2 2 "issue" "b2" (some exV1) 2,
                mkLRecord 3 2 "issue" "b3" (some exV1) 3,
                mkLRecord 4 2 "issue" "b4" (some exV1) 4,
                mkLRecord 5 2 "issue" "b5" (some exV1) 5,
                mkLRecord 6 1 "issue" "dup" (some exV96) 6],
    nextId := 7 }

/-- Store whose five beta-project rows all sit at similarity exactly 1 to
`exV1`, saturating the k=5 candidate scan for any alpha-project upsert. -/
def c1Store : LStore :=
  { projects := [exProjA, exProjB],
    records := [mkLRecord 1 2 "issue" "b1" (some exV1) 1,
                mkLRecord 2 2 "issue" "b2" (some exV1) 2,
                mkLRecord 3 2 "issue" "b3" (some exV1) 3,
                mkLRecord 4 2 "issue" "b4" (some exV1) 4,
                mkLRecord 5 2 "issue" "b5" (some exV1) 5],
    nextId := 6 }

/-! ## Claim theorems -/

/-- C9: in `list`, a project filter that is a literal name matching no
existing project (and is neither "current" nor "*") silently drops the
project restriction — the call returns exactly what the explicit
all-projects filter `"*"` returns. -/
theorem C9_unknown_project_filter_dropped
    (s : LStore) (cur : Project) (kind? status? : Option String) (pn : String)
    (hne0 : pn ≠ "") (hne1 : pn ≠ "current") (hne2 : pn ≠ "*")
    (hnone : ∀ p ∈ s.projects, p.name ≠ pn) :
    LibsqlAdapter.list s cur kind? status? (some pn) =
      LibsqlAdapter.list s cur kind? status? (some "*") := by
  unfold LibsqlAdapter.list
  have hfind : s.projects.find? (fun p => decide (p.name = pn)) = none := by
    rw [List.find?_eq_none]
    intro p hp
    simpa using hnone p hp
  simp [hne0, hne1, hne2, hfind]

/-- C9 witness: on a concrete two-project store, filtering by the unknown
literal name "zzz" returns both projects' records, not an empty list. -/
theorem C9_unknown_project_filter_dropped_witness :
    LibsqlAdapter.list c9Store exProjA none none (some "zzz") =
      LibsqlAdapter.list c9Store exProjA none none (some "*") ∧
    (LibsqlAdapter.list c9Store exProjA none none (some "zzz")).length = 2 :=
  ⟨C9_unknown_project_filter_dropped c9Store exProjA none none "zzz"
      (by decide) (by decide) (by decide) (by decide),
   by decide⟩

/-- C8: if the legacy-to-native migration throws, the legacy store file is
left intact (neither renamed nor deleted), any partially written native
store file is removed, and the original error is re-raised wrapped in
guidance (its message embedded verbatim), not swallowed. -/
theorem C8_migration_failure_cleanup
    (fs : FsState) (e : String) (partialNew : Option LStore) :
    (autoMigrate fs (.error e) partialNew).2.oldDb = fs.oldDb ∧
    (autoMigrate fs (.error e) partialNew).2.oldBackup = fs.oldBackup ∧
    (autoMigrate fs (.error e) partialNew).2.newDb = none ∧
    (autoMigrate fs (.error e) partialNew).1 =
      .error ("Database migration failed. Old database preserved at dude.db. Error: "
        ++ e) :=
  ⟨rfl, rfl, rfl, rfl⟩

/-- C7: `migrateFromDb` reports exactly the source's project and record
counts, counts exactly the records that have a side-table embedding row,
copies the project rows verbatim, and migrates every record — identifier
preserved — with its looked-up embedding, which is NULL exactly when the
source has no embedding row for it.  The source store is only read:
`migrateFromDb` is a function of the source returning a fresh target. -/
theorem C7_migration_counts (oldDb : SStore) :
    (migrateFromDb oldDb).2.projects = oldDb.projects.length ∧
    (migrateFromDb oldDb).2.records = oldDb.records.length ∧
    (migrateFromDb oldDb).2.embeddings =
      oldDb.records.countP (fun r =>
        (oldDb.record_embedding.find? (fun z => decide (z.1 = r.id))).isSome) ∧
    (migrateFromDb oldDb).1.projects = oldDb.projects ∧
    (∀ r ∈ oldDb.records, ∃ tr ∈ (migrateFromDb oldDb).1.records,
      tr.id = r.id ∧
      tr.embedding =
        (oldDb.record_embedding.find? (fun z => decide (z.1 = r.id))).map (·.2)) := by
  refine ⟨rfl, rfl, rfl, rfl, ?_⟩
  intro r hr
  exact ⟨migrateRecord oldDb.record_embedding r,
    List.mem_map_of_mem (migrateRecord oldDb.record_embedding) hr, rfl, rfl⟩

/-- C7 witness: the end-to-end scenario — one project, three records, two
embedded — reports counts (1, 3, 2) and the orphaned record id 3 lands in
the target with a NULL embedding. -/
theorem C7_migration_counts_witness :
    (migrateFromDb c7Store).2.projects = 1 ∧
    (migrateFromDb c7Store).2.records = 3 ∧
    (migrateFromDb c7Store).2.embeddings = 2 ∧
    (∃ tr ∈ (migrateFromDb c7Store).1.records, tr.id = 3 ∧ tr.embedding = none) := by
  refine ⟨((C7_migration_counts c7Store).1).trans (by decide),
    ((C7_migration_counts c7Store).2.1).trans (by decide),
    ((C7_migration_counts c7Store).2.2.1).trans (by decide), ?_⟩
  obtain ⟨tr, htr, hid, hemb⟩ :=
    (C7_migration_counts c7Store).2.2.2.2 (mkSRecord 3 1 "arch" "c" 30) (by decide)
  exact ⟨tr, htr, hid, hemb.trans (by decide)⟩

/-- An UPDATE whose WHERE clause matches no row succeeds and changes
nothing (libsql table). -/
theorem sqlUpdate_no_match {cond : LRecord → Bool} {f : LRecord → LRecord}
    {l : List LRecord} (h : ∀ r ∈ l, cond r = false) :
    sqlUpdate cond f l = .ok l := by
  unfold sqlUpdate
  have hall : l.all (fun r => !cond r || checkRow (f r)) = true := by
    rw [List.all_eq_true]
    intro r hr
    rw [h r hr]
    rfl
  rw [if_pos hall]
  congr 1
  calc l.map (fun r => if cond r then f r else r)
      = l.map id := List.map_congr_left (fun r hr => by rw [h r hr]; simp)
    _ = l := List.map_id l

/-- An UPDATE whose WHERE clause matches no row succeeds and changes
nothing (legacy table). -/
theorem sRecUpdate_no_match {cond : SRecord → Bool} {f : SRecord → SRecord}
    {l : List SRecord} (h : ∀ r ∈ l, cond r = false) :
    sRecUpdate cond f l = .ok l := by
  unfold sRecUpdate
  have hall : l.all (fun r => !cond r || sCheckRow (f r)) = true := by
    rw [List.all_eq_true]
    intro r hr
    rw [h r hr]
    rfl
  rw [if_pos hall]
  congr 1
  calc l.map (fun r => if cond r then f r else r)
      = l.map id := List.map_congr_left (fun r hr => by rw [h r hr]; simp)
    _ = l := List.map_id l

/-- C10: upsert with an explicit id matching no existing record returns
null and creates no record row — on the libsql backend the store is left
entirely unchanged, while the sqlite-vec backend nevertheless inserts an
embedding row keyed to the nonexistent record id into the vec0
side-table. -/
theorem C10_upsert_nonexistent_id (s : LStore) (s2 : SStore) (cur : Project)
    (id2 : ℕ) (projectId? : Option ℕ) (kind title body status : String)
    (e : Vec) (now : ℕ) (hpos : id2 ≠ 0)
    (habs : ∀ r ∈ s.records, r.id ≠ id2)
    (habs2 : ∀ r ∈ s2.records, r.id ≠ id2) :
    LibsqlAdapter.upsert s cur (some id2) projectId? kind title body status
        e now = (.ok none, s) ∧
    (SqliteVecAdapter.upsert s2 cur (some id2) projectId? kind title body
        status e now).1 = .ok none ∧
    (SqliteVecAdapter.upsert s2 cur (some id2) projectId? kind title body
        status e now).2.records = s2.records ∧
    (id2, e) ∈ (SqliteVecAdapter.upsert s2 cur (some id2) projectId? kind
        title body status e now).2.record_embedding := by
  have hupd : sqlUpdate (fun r => decide (r.id = id2))
      (idOverwrite kind title body status e now) s.records = .ok s.records :=
    sqlUpdate_no_match (fun r hr => decide_eq_false (habs r hr))
  have hget : LibsqlAdapter.get s id2 = none := by
    unfold LibsqlAdapter.get
    have : s.records.find? (fun r => decide (r.id = id2)) = none := by
      rw [List.find?_eq_none]
      intro r hr
      simpa using habs r hr
    rw [this]
  have hL : LibsqlAdapter.upsert s cur (some id2) projectId? kind title body
      status e now = (.ok none, s) := by
    unfold LibsqlAdapter.upsert
    simp only [if_pos hpos, hupd]
    rw [← hget]
  have hupd2 : sRecUpdate (fun r => decide (r.id = id2))
      (fun r => { r with
        kind := kind, title := title, body := body, status := status,
        updated_at := now }) s2.records = .ok s2.records :=
    sRecUpdate_no_match (fun r hr => decide_eq_false (habs2 r hr))
  have hget2 : SqliteVecAdapter.getRecord { s2 with
      records := s2.records,
      record_embedding := replaceEmbedding id2 e s2.record_embedding } id2
      = none := by
    unfold SqliteVecAdapter.getRecord
    have : s2.records.find? (fun r => decide (r.id = id2)) = none := by
      rw [List.find?_eq_none]
      intro r hr
      simpa using habs2 r hr
    simp only [this]
  have htx : SqliteVecAdapter.upsertTx s2 cur (some id2) projectId? kind
      title body status e now = .ok (none, { s2 with
        records := s2.records,
        record_embedding := replaceEmbedding id2 e s2.record_embedding }) := by
    unfold SqliteVecAdapter.upsertTx
    simp only [if_pos hpos, hupd2, hget2]
  have hS : SqliteVecAdapter.upsert s2 cur (some id2) projectId? kind title
      body status e now = (.ok none, { s2 with
        records := s2.records,
        record_embedding := replaceEmbedding id2 e s2.record_embedding }) := by
    unfold SqliteVecAdapter.upsert
    rw [htx]
  refine ⟨hL, ?_, ?_, ?_⟩
  · rw [hS]
  · rw [hS]
  · rw [hS]
    unfold replaceEmbedding
    exact List.mem_append_right _ (List.mem_singleton_self _)

/-- Rows returned by `vector_top_k` come from the record table. -/
theorem mem_vectorTopKRecs_subset {e : Vec} {k : ℕ} {l : List LRecord}
    {r : LRecord} (h : r ∈ vectorTopKRecs e k l) : r ∈ l := by
  unfold vectorTopKRecs vectorTopK at h
  obtain ⟨z, hz, rfl⟩ := List.mem_map.mp h
  have hz2 : z ∈ sortedEntries e l := List.take_subset _ _ hz
  have hz3 : z ∈ entries l := (perm_sortedEntries e l).mem_iff.mp hz2
  have hz4 := snd_mem_of_mem_tagIdx hz3
  exact List.mem_of_mem_filter hz4

/-- A dedup candidate is a stored record of the requested project and
kind. -/
theorem dedupCandidates_props {s : LStore} {e : Vec} {proj : ℕ}
    {kind : String} {c : LRecord} (h : c ∈ dedupCandidates s e proj kind) :
    c ∈ s.records ∧ c.project_id = proj ∧ c.kind = kind := by
  unfold dedupCandidates at h
  have h1 := List.mem_of_mem_filter h
  have h2 := List.of_mem_filter h
  simp only [Bool.and_eq_true, decide_eq_true_eq] at h2
  exact ⟨mem_vectorTopKRecs_subset h1, h2.1, h2.2⟩

/-- An UPDATE fails when some matched row would violate a CHECK
constraint. -/
theorem sqlUpdate_fails {cond : LRecord → Bool} {f : LRecord → LRecord}
    {l : List LRecord} {c : LRecord} (hc : c ∈ l) (hcond : cond c = true)
    (hcheck : checkRow (f c) = false) :
    sqlUpdate cond f l = .error "CHECK constraint failed: record" := by
  unfold sqlUpdate
  have hnot : ¬ (l.all (fun r => !cond r || checkRow (f r)) = true) := by
    rw [List.all_eq_true]
    intro hall
    have hcc := hall c hc
    rw [hcond, hcheck] at hcc
    simp at hcc
  rw [if_neg hnot]

/-- An INSERT of a row violating a CHECK constraint fails. -/
theorem sqlInsert_fails {r : LRecord} {l : List LRecord}
    (h : checkRow r = false) :
    sqlInsert r l = .error "CHECK constraint failed: record" := by
  unfold sqlInsert
  rw [h]
  rfl

/-- C4 (amended): upsert without an explicit id fails with a validation
error — surfaced before any write, the store unchanged — whenever `kind`
or `status` is outside its enumeration (in a store whose rows satisfy the
kind constraint).  The claim's third trigger, an empty title, is NOT
rejected by the code: see the counterexample. -/
theorem C4_invalid_kind_status_rejected (s : LStore) (cur : Project)
    (projectId? : Option ℕ) (kind title body status : String) (e : Vec)
    (now : ℕ)
    (hkinds : ∀ r ∈ s.records, validKind r.kind = true)
    (hbad : ¬(validKind kind = true ∧ validStatus status = true)) :
    (∃ msg, (LibsqlAdapter.upsert s cur none projectId? kind title body
      status e now).1 = .error msg) ∧
    (LibsqlAdapter.upsert s cur none projectId? kind title body status e
      now).2 = s := by
  have key : LibsqlAdapter.upsert s cur none projectId? kind title body
      status e now = LibsqlAdapter.upsertNoId s (projectId?.getD cur.id)
      kind title body status e now := rfl
  rw [key]
  unfold LibsqlAdapter.upsertNoId
  cases hf : (dedupCandidates s e (projectId?.getD cur.id) kind).find?
      (fun r => decide ((17 : ℚ)/20 ≤ computeSimilarity e r.embedding)) with
  | some c =>
    have hcmem := List.mem_of_find?_eq_some hf
    obtain ⟨hcs, _, hckind⟩ := dedupCandidates_props hcmem
    have hkc : validKind kind = true := by
      rw [← hckind]
      exact hkinds c hcs
    have hsbad : validStatus status = false := by
      cases hstat : validStatus status
      · rfl
      · exact absurd ⟨hkc, hstat⟩ hbad
    have hfail : sqlUpdate (fun r => decide (r.id = c.id))
        (dedupOverwrite title body status e now) s.records =
        .error "CHECK constraint failed: record" := by
      refine sqlUpdate_fails hcs (by simp) ?_
      unfold checkRow dedupOverwrite
      simp [hsbad]
    simp only [hfail]
    exact ⟨⟨_, rfl⟩, trivial⟩
  | none =>
    have hfail : sqlInsert
        (lNewRecord s.nextId (projectId?.getD cur.id) kind title body status
          e now) s.records = .error "CHECK constraint failed: record" := by
      apply sqlInsert_fails
      unfold checkRow lNewRecord
      simp only []
      cases hk : validKind kind
      · rfl
      · cases hstat : validStatus status
        · rfl
        · exact absurd ⟨hk, hstat⟩ hbad
    simp only [hfail]
    exact ⟨⟨_, rfl⟩, trivial⟩

/-- C4 witness: upserting with the invalid kind "bogus" errors and leaves
the concrete store unchanged. -/
theorem C4_invalid_kind_status_rejected_witness :
    (∃ msg, (LibsqlAdapter.upsert c9Store exProjA none none "bogus" "t" ""
      "open" exV1 7).1 = .error msg) ∧
    (LibsqlAdapter.upsert c9Store exProjA none none "bogus" "t" "" "open"
      exV1 7).2 = c9Store :=
  C4_invalid_kind_status_rejected c9Store exProjA none "bogus" "t" "" "open"
    exV1 7 (by decide) (by decide)

/-- C4 counterexample: an upsert with an empty title is accepted — it
returns a saved record with empty title and writes a row, where the claim
requires a validation error before any write. -/
theorem C4_counterexample_empty_title_accepted :
    (LibsqlAdapter.upsert ⟨[exProjA], [], 1⟩ exProjA none none "issue" ""
      "body" "open" exV1 5).1 =
      .ok (some { id := 1, project_id := 1, kind := "issue", title := "",
                  body := "body", status := "open", created_at := 5,
                  updated_at := 5, project := "alpha" }) ∧
    (LibsqlAdapter.upsert ⟨[exProjA], [], 1⟩ exProjA none none "issue" ""
      "body" "open" exV1 5).2.records.length = 1 := by
  constructor
  · decide
  · decide

/-- C10 witness: updating nonexistent id 99 on concrete stores returns
null, leaves the libsql store untouched, and plants the orphan embedding
row (99, [1, 0]) in the sqlite-vec side-table. -/
theorem C10_upsert_nonexistent_id_witness :
    LibsqlAdapter.upsert c9Store exProjA (some 99) none "issue" "t" ""
      "open" exV1 7 = (.ok none, c9Store) ∧
    (SqliteVecAdapter.upsert c7Store exProjA (some 99) none "issue" "t" ""
      "open" exV1 7).1 = .ok none ∧
    (99, exV1) ∈ (SqliteVecAdapter.upsert c7Store exProjA (some 99) none
      "issue" "t" "" "open" exV1 7).2.record_embedding := by
  have h := C10_upsert_nonexistent_id c9Store c7Store exProjA 99 none
    "issue" "t" "" "open" exV1 7 (by decide) (by decide) (by decide)
  exact ⟨h.1, h.2.1, h.2.2.2⟩

/-- The kind filter never adds rows. -/
theorem mem_searchKindFilter_subset {kind? : Option String}
    {rows : List (LRecord × String)} {x : LRecord × String}
    (h : x ∈ searchKindFilter kind? rows) : x ∈ rows := by
  cases kind? with
  | none => exact h
  | some kd =>
    dsimp only [searchKindFilter] at h
    by_cases hk : kd ≠ "" ∧ kd ≠ "all"
    · rw [if_pos hk] at h
      exact List.mem_of_mem_filter h
    · rwa [if_neg hk] at h

/-- Elimination principle for `LibsqlAdapter.search`: every returned hit
comes from a stored record joined to its project, carries that record's
fields, its boosted similarity (same-project boost of 0.1 capped at 1),
and passed the 0.3 floor. -/
theorem search_mem_cases {s : LStore} {cur : Project} {e : Vec}
    {kind? : Option String} {limit : ℕ} {hit : Hit}
    (h : hit ∈ LibsqlAdapter.search s cur e kind? limit) :
    ∃ r ∈ s.records, ∃ p : Project,
      lookupProject s r.project_id = some p ∧
      hit.id = r.id ∧ hit.project = p.name ∧
      hit.similarity = (if p.name = cur.name
        then min 1 (computeSimilarity e r.embedding + 1/10)
        else computeSimilarity e r.embedding) ∧
      (3 : ℚ)/10 ≤ hit.similarity := by
  unfold LibsqlAdapter.search at h
  have h1 : hit ∈ ((((searchKindFilter kind?
      ((vectorTopKRecs e (limit * 3) s.records).filterMap
        (fun r => (lookupProject s r.project_id).map
          (fun p => (r, p.name))))).map (fun rp =>
      ({ id := rp.1.id, project_id := rp.1.project_id, kind := rp.1.kind,
         title := rp.1.title, body := rp.1.body, status := rp.1.status,
         created_at := rp.1.created_at, updated_at := rp.1.updated_at,
         project := rp.2,
         similarity := if rp.2 = cur.name
           then min 1 (computeSimilarity e rp.1.embedding + 1/10)
           else computeSimilarity e rp.1.embedding } : Hit))).filter
      (fun h => decide ((3 : ℚ)/10 ≤ h.similarity))) : List Hit) := by
    have h2 := List.take_subset limit _ h
    exact (List.perm_insertionSort simGe _).mem_iff.mp h2
  have hfloor := List.of_mem_filter h1
  have h3 := List.mem_of_mem_filter h1
  obtain ⟨rp, hrp, hmk⟩ := List.mem_map.mp h3
  have hrp2 := mem_searchKindFilter_subset hrp
  obtain ⟨r, hrmem, hjoin⟩ := List.mem_filterMap.mp hrp2
  obtain ⟨p, hp, hpair⟩ := Option.map_eq_some'.mp hjoin
  have hrs := mem_vectorTopKRecs_subset hrmem
  refine ⟨r, hrs, p, hp, ?_, ?_, ?_, ?_⟩
  · rw [← hmk, ← hpair]
  · rw [← hmk, ← hpair]
  · rw [← hmk, ← hpair]
  · rw [← hmk] at hfloor ⊢
    exact of_decide_eq_true hfloor

/-- C2 counterexample: with current project "alpha", a stored record whose
raw (un-boosted) similarity to the query is 7/25 = 0.28 < 0.3 nevertheless
appears in the search results with boosted similarity 0.38 — the floor is
applied after the same-project boost, refuting the claim. -/
theorem C2_counterexample_raw_below_floor_returned :
    computeSimilarity exV1 (some exV28) < 3/10 ∧
    (LibsqlAdapter.search c2Store exProjA exV1 none 5).map
      (fun h => (h.id, h.similarity)) = [(1, 19/50)] := by
  constructor
  · norm_num [computeSimilarity, dot, exV1, exV28]
  · norm_num [LibsqlAdapter.search, vectorTopKRecs, vectorTopK, sortedEntries,
      entries, tagIdx, c2Store, mkLRecord, exProjA, exV1, exV28,
      lookupProject, searchKindFilter, computeSimilarity, cosDist, dot,
      List.insertionSort, List.orderedInsert, List.find?, List.filterMap,
      List.filter, simGe, candLe]

/-- C2 (amended): the relevance floor applies to the boosted similarity.
A returned hit not owned by the current project has raw similarity at
least 0.3; a returned hit owned by the current project has raw similarity
at least 0.2 (0.3 minus the 0.1 boost); candidates below those bounds
never appear. -/
theorem C2_relevance_floor_on_boosted (s : LStore) (cur : Project) (e : Vec)
    (kind? : Option String) (limit : ℕ) (hit : Hit)
    (h : hit ∈ LibsqlAdapter.search s cur e kind? limit) :
    ∃ r ∈ s.records, r.id = hit.id ∧
      (hit.project ≠ cur.name → (3 : ℚ)/10 ≤ computeSimilarity e r.embedding) ∧
      (hit.project = cur.name → (1 : ℚ)/5 ≤ computeSimilarity e r.embedding) := by
  obtain ⟨r, hrs, p, hp, hid, hproj, hsim, hfloor⟩ := search_mem_cases h
  refine ⟨r, hrs, hid.symm, ?_, ?_⟩
  · intro hne
    rw [hproj] at hne
    rw [hsim, if_neg hne] at hfloor
    exact hfloor
  · intro heq
    rw [hproj] at heq
    rw [hsim, if_pos heq] at hfloor
    have h2 := le_min_iff.mp hfloor
    linarith [h2.2]

/-- C2 witness for the amended floor: the record of `c2Store` (raw 0.28,
current project) satisfies the 0.2 bound. -/
theorem C2_relevance_floor_on_boosted_witness :
    ∃ r ∈ c2Store.records, r.id = 1 ∧
      ("alpha" ≠ exProjA.name → (3 : ℚ)/10 ≤ computeSimilarity exV1 r.embedding) ∧
      ("alpha" = exProjA.name → (1 : ℚ)/5 ≤ computeSimilarity exV1 r.embedding) :=
  C2_relevance_floor_on_boosted c2Store exProjA exV1 none 5
    { id := 1, project_id := 1, kind := "issue", title := "a", body := "",
      status := "open", created_at := 10, updated_at := 10,
      project := "alpha", similarity := 19/50 }
    (by norm_num [LibsqlAdapter.search, vectorTopKRecs, vectorTopK,
      sortedEntries, entries, tagIdx, c2Store, mkLRecord, exProjA, exV1,
      exV28, lookupProject, searchKindFilter, computeSimilarity, cosDist,
      dot, List.insertionSort, List.orderedInsert, List.find?,
      List.filterMap, List.filter, simGe, candLe])

/-- C6: every hit returned by search carries a similarity in [0, 1]: the
floor keeps it at least 0.3 > 0; the +0.1 boost applies exactly to records
owned by the current project and is capped at 1.0 by `Math.min`; an
unboosted similarity is a dot product of unit vectors and hence at most 1. -/
theorem C6_similarity_in_unit_interval (s : LStore) (cur : Project) (e : Vec)
    (kind? : Option String) (limit : ℕ) (hit : Hit)
    (hq : dot e e = 1)
    (hunit : ∀ r ∈ s.records, ∀ v, r.embedding = some v → dot v v = 1)
    (h : hit ∈ LibsqlAdapter.search s cur e kind? limit) :
    0 ≤ hit.similarity ∧ hit.similarity ≤ 1 ∧
    ∃ r ∈ s.records, r.id = hit.id ∧
      hit.similarity = (if hit.project = cur.name
        then min 1 (computeSimilarity e r.embedding + 1/10)
        else computeSimilarity e r.embedding) := by
  obtain ⟨r, hrs, p, hp, hid, hproj, hsim, hfloor⟩ := search_mem_cases h
  have hraw : computeSimilarity e r.embedding ≤ 1 := by
    cases hemb : r.embedding with
    | none => norm_num [computeSimilarity]
    | some v =>
      show computeSimilarity e (some v) ≤ 1
      show dot e v ≤ 1
      exact dot_le_one hq (hunit r hrs v hemb)
  refine ⟨by linarith, ?_, r, hrs, hid.symm, by rw [hproj]; exact hsim⟩
  rw [hsim]
  by_cases hb : p.name = cur.name
  · rw [if_pos hb]
    exact min_le_left _ _
  · rw [if_neg hb]
    exact hraw

/-- C6 witness: an exact same-project match in `c6Store` is returned with
boosted similarity capped at exactly 1. -/
theorem C6_similarity_in_unit_interval_witness :
    0 ≤ c6Hit.similarity ∧ c6Hit.similarity ≤ 1 ∧
    ∃ r ∈ c6Store.records, r.id = c6Hit.id ∧
      c6Hit.similarity = (if c6Hit.project = exProjA.name
        then min 1 (computeSimilarity exV1 r.embedding + 1/10)
        else computeSimilarity exV1 r.embedding) :=
  C6_similarity_in_unit_interval c6Store exProjA exV1 none 5 c6Hit
    (by norm_num [dot, exV1])
    (by
      intro r hr v hv
      simp only [c6Store, mkLRecord, List.mem_singleton] at hr
      subst hr
      simp only [exV96] at hv
      obtain rfl := Option.some.inj hv
      norm_num [dot])
    (by norm_num [LibsqlAdapter.search, vectorTopKRecs, vectorTopK,
      sortedEntries, entries, tagIdx, c6Store, c6Hit, mkLRecord, exProjA,
      exV1, exV96, lookupProject, searchKindFilter, computeSimilarity,
      cosDist, dot, List.insertionSort, List.orderedInsert, List.find?,
      List.filterMap, List.filter, simGe, candLe, min_def,
      List.mem_singleton])

/-- Every statement boundary of the no-id upsert path shows either the
initial or the final store. -/
theorem upsertTraceNoId_boundaries (s : LStore) (proj : ℕ)
    (kind title body status : String) (e : Vec) (now : ℕ) :
    ∀ st ∈ LibsqlAdapter.upsertTraceNoId s proj kind title body status e now,
      st = s ∨
      st = (LibsqlAdapter.upsertNoId s proj kind title body status e now).2 := by
  intro st hst
  unfold LibsqlAdapter.upsertTraceNoId at hst
  unfold LibsqlAdapter.upsertNoId
  cases hf : (dedupCandidates s e proj kind).find?
      (fun r => decide ((17 : ℚ)/20 ≤ computeSimilarity e r.embedding)) with
  | some c =>
    rw [hf] at hst
    dsimp only at hst ⊢
    cases hu : sqlUpdate (fun r => decide (r.id = c.id))
        (dedupOverwrite title body status e now) s.records with
    | error msg =>
      simp only [hu, List.mem_cons, List.not_mem_nil, or_false] at hst
      rcases hst with rfl | rfl
      · exact Or.inl rfl
      · exact Or.inl rfl
    | ok recs =>
      simp only [hu, List.mem_cons, List.not_mem_nil, or_false] at hst ⊢
      rcases hst with rfl | rfl | rfl | rfl
      · exact Or.inl rfl
      · exact Or.inl rfl
      · exact Or.inr rfl
      · exact Or.inr rfl
  | none =>
    rw [hf] at hst
    dsimp only at hst ⊢
    cases hu : sqlInsert (lNewRecord s.nextId proj kind title body status e
        now) s.records with
    | error msg =>
      simp only [hu, List.mem_cons, List.not_mem_nil, or_false] at hst
      rcases hst with rfl | rfl
      · exact Or.inl rfl
      · exact Or.inl rfl
    | ok recs =>
      simp only [hu, List.mem_cons, List.not_mem_nil, or_false] at hst ⊢
      rcases hst with rfl | rfl | rfl | rfl
      · exact Or.inl rfl
      · exact Or.inl rfl
      · exact Or.inr rfl
      · exact Or.inr rfl

/-- C5: upsert-with-dedup executes atomically.  On the libsql backend —
which issues its statements without a transaction — every statement
boundary of the execution shows either the initial or the final store (all
statements before the single write are reads and the write statement is
itself atomic), so a failure of any constituent statement leaves the
persisted store unchanged.  On the sqlite-vec backend the transaction
wrapper rolls back: an erroring upsert returns the store unchanged. -/
theorem C5_upsert_atomic (s : LStore) (s2 : SStore) (cur : Project)
    (id? projectId? : Option ℕ) (kind title body status : String) (e : Vec)
    (now : ℕ) :
    (∀ st ∈ LibsqlAdapter.upsertTrace s cur id? projectId? kind title body
        status e now,
      st = s ∨
      st = (LibsqlAdapter.upsert s cur id? projectId? kind title body status
        e now).2) ∧
    (∀ msg, (SqliteVecAdapter.upsert s2 cur id? projectId? kind title body
        status e now).1 = .error msg →
      (SqliteVecAdapter.upsert s2 cur id? projectId? kind title body status
        e now).2 = s2) := by
  constructor
  · intro st hst
    cases id? with
    | none =>
      exact upsertTraceNoId_boundaries s (projectId?.getD cur.id) kind title
        body status e now st hst
    | some id2 =>
      by_cases h0 : id2 ≠ 0
      · unfold LibsqlAdapter.upsertTrace at hst
        unfold LibsqlAdapter.upsert
        dsimp only at hst ⊢
        rw [if_pos h0] at hst
        rw [if_pos h0]
        cases hu : sqlUpdate (fun r => decide (r.id = id2))
            (idOverwrite kind title body status e now) s.records with
        | error msg =>
          simp only [hu, List.mem_cons, List.not_mem_nil, or_false] at hst
          exact Or.inl hst
        | ok recs =>
          simp only [hu, List.mem_cons, List.not_mem_nil, or_false] at hst ⊢
          rcases hst with rfl | rfl | rfl
          · exact Or.inl rfl
          · exact Or.inr rfl
          · exact Or.inr rfl
      · unfold LibsqlAdapter.upsertTrace at hst
        unfold LibsqlAdapter.upsert
        dsimp only at hst ⊢
        rw [if_neg h0] at hst
        rw [if_neg h0]
        exact upsertTraceNoId_boundaries s (projectId?.getD cur.id) kind
          title body status e now st hst
  · intro msg hmsg
    unfold SqliteVecAdapter.upsert at hmsg ⊢
    cases htx : SqliteVecAdapter.upsertTx s2 cur id? projectId? kind title
        body status e now with
    | error m => rfl
    | ok pr =>
      obtain ⟨r, s'⟩ := pr
      rw [htx] at hmsg
      simp at hmsg

/-- C5 witness: a failing upsert (invalid kind) leaves concrete stores
unchanged on both backends; the initial store is a boundary state. -/
theorem C5_upsert_atomic_witness :
    (c9Store = c9Store ∨
      c9Store = (LibsqlAdapter.upsert c9Store exProjA none none "bogus" "t"
        "" "open" exV1 7).2) ∧
    (SqliteVecAdapter.upsert c5SStore exProjA none none "bogus" "t" ""
      "open" exV1 7).2 = c5SStore := by
  constructor
  · exact (C5_upsert_atomic c9Store c5SStore exProjA none none "bogus" "t"
      "" "open" exV1 7).1 c9Store (by decide)
  · exact (C5_upsert_atomic c9Store c5SStore exProjA none none "bogus" "t"
      "" "open" exV1 7).2 "CHECK constraint failed: record" (by decide)

/-- An UPDATE all of whose matched rows satisfy the CHECK constraints
succeeds and rewrites exactly the matched rows. -/
theorem sqlUpdate_ok {cond : LRecord → Bool} {f : LRecord → LRecord}
    {l : List LRecord}
    (h : ∀ r ∈ l, cond r = true → checkRow (f r) = true) :
    sqlUpdate cond f l = .ok (l.map (fun r => if cond r then f r else r)) := by
  unfold sqlUpdate
  have hall : l.all (fun r => !cond r || checkRow (f r)) = true := by
    rw [List.all_eq_true]
    intro r hr
    cases hcr : cond r with
    | false => rfl
    | true => simp [h r hr hcr]
  rw [if_pos hall]

/-- C3 (amended): the dedup candidate set of upsert is the up-to-5 nearest
neighbours of the whole index, subsequently filtered to the same project
and kind; whenever a record of the requested project and kind with
similarity at least 0.85 survives that filter, upsert overwrites an
existing row in place — identifiers unchanged, no insertion. -/
theorem C3_dedup_updates_surviving_candidate (s : LStore) (cur : Project)
    (projectId? : Option ℕ) (kind title body status : String) (e : Vec)
    (now : ℕ)
    (hkinds : ∀ r ∈ s.records, validKind r.kind = true)
    (hstatus : validStatus status = true)
    (c : LRecord) (hc : c ∈ dedupCandidates s e (projectId?.getD cur.id) kind)
    (hsim : (17 : ℚ)/20 ≤ computeSimilarity e c.embedding) :
    (LibsqlAdapter.upsert s cur none projectId? kind title body status e
      now).2.records.map (fun r => r.id) = s.records.map (fun r => r.id) ∧
    ∃ d ∈ s.records, d.project_id = projectId?.getD cur.id ∧ d.kind = kind ∧
      (17 : ℚ)/20 ≤ computeSimilarity e d.embedding ∧
      dedupOverwrite title body status e now d ∈
        (LibsqlAdapter.upsert s cur none projectId? kind title body status e
          now).2.records := by
  have key : LibsqlAdapter.upsert s cur none projectId? kind title body
      status e now = LibsqlAdapter.upsertNoId s (projectId?.getD cur.id)
      kind title body status e now := rfl
  rw [key]
  have hfind : ((dedupCandidates s e (projectId?.getD cur.id) kind).find?
      (fun r => decide ((17 : ℚ)/20 ≤ computeSimilarity e r.embedding))).isSome := by
    rw [List.find?_isSome]
    exact ⟨c, hc, decide_eq_true hsim⟩
  obtain ⟨d, hd⟩ := Option.isSome_iff_exists.mp hfind
  have hdmem := List.mem_of_find?_eq_some hd
  have hdsim : (17 : ℚ)/20 ≤ computeSimilarity e d.embedding := by
    have hp := List.find?_some hd
    simpa using hp
  obtain ⟨hds, hdproj, hdkind⟩ := dedupCandidates_props hdmem
  have hupd : sqlUpdate (fun r => decide (r.id = d.id))
      (dedupOverwrite title body status e now) s.records =
      .ok (s.records.map (fun r => if decide (r.id = d.id) then
        dedupOverwrite title body status e now r else r)) := by
    apply sqlUpdate_ok
    intro r hr _
    unfold checkRow dedupOverwrite
    simp only []
    rw [hkinds r hr, hstatus]
    rfl
  unfold LibsqlAdapter.upsertNoId
  rw [hd]
  dsimp only
  rw [hupd]
  dsimp only
  constructor
  · rw [List.map_map]
    apply List.map_congr_left
    intro r _
    by_cases hid : r.id = d.id
    · simp [hid, dedupOverwrite]
    · simp [hid]
  · refine ⟨d, hds, hdproj, hdkind, hdsim, ?_⟩
    have : dedupOverwrite title body status e now d =
        (fun r => if decide (r.id = d.id) then
          dedupOverwrite title body status e now r else r) d := by
      simp
    rw [this]
    exact List.mem_map_of_mem _ hds

/-- C3 counterexample: `c3Store` holds a current-project issue of
similarity 0.96 ≥ 0.85 (record 6), but the five beta-project rows are
strictly nearer to the query and fill the k=5 candidate set before the
project/kind filter is applied — upsert inserts a seventh row instead of
updating record 6. -/
theorem C3_counterexample_crowded_out :
    (∃ r ∈ c3Store.records, r.project_id = 1 ∧ r.kind = "issue" ∧
      (17 : ℚ)/20 ≤ computeSimilarity exV1 r.embedding) ∧
    (LibsqlAdapter.upsert c3Store exProjA none none "issue" "t" "" "open"
      exV1 9).2.records.length = c3Store.records.length + 1 := by
  constructor
  · refine ⟨mkLRecord 6 1 "issue" "dup" (some exV96) 6, ?_, rfl, rfl, ?_⟩
    · simp [c3Store]
    · norm_num [computeSimilarity, dot, mkLRecord, exV96, exV1]
  · norm_num [LibsqlAdapter.upsert, LibsqlAdapter.upsertNoId,
      dedupCandidates, vectorTopKRecs, vectorTopK, sortedEntries, entries,
      tagIdx, c3Store, mkLRecord, exProjA, exProjB, exV1, exV96,
      computeSimilarity, cosDist, dot, List.insertionSort,
      List.orderedInsert, candLe, sqlInsert, sqlUpdate, checkRow, validKind,
      validStatus, lNewRecord, List.find?, List.filter, LibsqlAdapter.get,
      lookupProject]

/-- C3 witness for the amended statement: in `c6Store` the single
current-project record survives the filter and upsert overwrites it in
place. -/
theorem C3_dedup_updates_surviving_candidate_witness :
    (LibsqlAdapter.upsert c6Store exProjA none none "issue" "t2" "b2"
      "open" exV1 9).2.records.map (fun r => r.id) =
      c6Store.records.map (fun r => r.id) ∧
    ∃ d ∈ c6Store.records, d.project_id = exProjA.id ∧ d.kind = "issue" ∧
      (17 : ℚ)/20 ≤ computeSimilarity exV1 d.embedding ∧
      dedupOverwrite "t2" "b2" "open" exV1 9 d ∈
        (LibsqlAdapter.upsert c6Store exProjA none none "issue" "t2" "b2"
          "open" exV1 9).2.records :=
  C3_dedup_updates_surviving_candidate c6Store exProjA none "issue" "t2"
    "b2" "open" exV1 9 (by decide) (by decide)
    (mkLRecord 1 1 "issue" "a" (some exV96) 10)
    (by norm_num [dedupCandidates, vectorTopKRecs, vectorTopK,
      sortedEntries, entries, tagIdx, c6Store, mkLRecord, exProjA, exV1,
      exV96, computeSimilarity, cosDist, dot, List.insertionSort,
      List.orderedInsert, candLe, List.filter])
    (by norm_num [computeSimilarity, dot, mkLRecord, exV96, exV1])

/-- A member satisfying `q` but not `p`, in a list where `p` implies `q`,
forces a strict count gap. -/
theorem countP_succ_le_of_mem {l : List α} {a : α} {p q : α → Bool}
    (ha : a ∈ l) (hqa : q a = true) (hpa : p a = false)
    (himp : ∀ z ∈ l, p z = true → q z = true) :
    l.countP p + 1 ≤ l.countP q := by
  induction l with
  | nil => simp at ha
  | cons b t ih =>
    rcases List.mem_cons.mp ha with rfl | ha
    · rw [List.countP_cons, List.countP_cons, hpa, hqa]
      have hmono : t.countP p ≤ t.countP q :=
        List.countP_mono_left (fun z hz => himp z (List.mem_cons_of_mem _ hz))
      simp only [Bool.false_eq_true, if_false, if_true]
      omega
    · have hrec := ih ha (fun z hz => himp z (List.mem_cons_of_mem _ hz))
      rw [List.countP_cons, List.countP_cons]
      cases hb : p b with
      | false =>
        simp only [Bool.false_eq_true, if_false]
        omega
      | true =>
        have hqb := himp b (List.mem_cons_self b t) hb
        simp only [hqb]
        simp
        omega

/-- An or-predicate counts at most the sum of the counts. -/
theorem countP_or_le (p q : α → Bool) (l : List α) :
    l.countP (fun x => p x || q x) ≤ l.countP p + l.countP q := by
  induction l with
  | nil => simp
  | cons b t ih =>
    rw [List.countP_cons, List.countP_cons, List.countP_cons]
    cases hp : p b <;> cases hq : q b <;> simp [hp, hq] <;> omega

/-- `find?` commutes with `map`. -/
theorem find?_comp_map (f : α → β) (q : β → Bool) :
    ∀ l : List α, (l.map f).find? q = (l.find? (fun a => q (f a))).map f := by
  intro l
  induction l with
  | nil => rfl
  | cons a t ih =>
    rw [List.map_cons, List.find?_cons, List.find?_cons]
    cases hq : q (f a) with
    | true => rfl
    | false => exact ih

/-- In a list with pairwise distinct ids, the id determines the row. -/
theorem id_unique {l : List LRecord}
    (h : (l.map (fun r => r.id)).Nodup) {r1 r2 : LRecord}
    (h1 : r1 ∈ l) (h2 : r2 ∈ l) (heq : r1.id = r2.id) : r1 = r2 := by
  induction l with
  | nil => simp at h1
  | cons b t ih =>
    rw [List.map_cons, List.nodup_cons] at h
    by_cases e1 : r1 = b <;> by_cases e2 : r2 = b
    · rw [e1, e2]
    · have h2t : r2 ∈ t := by
        rcases List.mem_cons.mp h2 with h2b | h2t
        · exact absurd h2b e2
        · exact h2t
      refine absurd ?_ h.1
      rw [← e1, heq]
      exact List.mem_map_of_mem (fun r => r.id) h2t
    · have h1t : r1 ∈ t := by
        rcases List.mem_cons.mp h1 with h1b | h1t
        · exact absurd h1b e1
        · exact h1t
      refine absurd ?_ h.1
      rw [← e2, ← heq]
      exact List.mem_map_of_mem (fun r => r.id) h1t
    · have h1t : r1 ∈ t := by
        rcases List.mem_cons.mp h1 with h1b | h1t
        · exact absurd h1b e1
        · exact h1t
      have h2t : r2 ∈ t := by
        rcases List.mem_cons.mp h2 with h2b | h2t
        · exact absurd h2b e2
        · exact h2t
      exact ih h.2 h1t h2t

/-- With pairwise distinct ids, at most one row matches each id. -/
theorem countP_id_le_one {l : List LRecord}
    (h : (l.map (fun r => r.id)).Nodup) (n : ℕ) :
    l.countP (fun r => decide (r.id = n)) ≤ 1 := by
  induction l with
  | nil => simp
  | cons b t ih =>
    rw [List.map_cons, List.nodup_cons] at h
    rw [List.countP_cons]
    cases hb : decide (b.id = n) with
    | false =>
      have hrec := ih h.2
      simp only [Bool.false_eq_true, if_false]
      omega
    | true =>
      have hbn : b.id = n := of_decide_eq_true hb
      have hzero : t.countP (fun r => decide (r.id = n)) = 0 := by
        rw [List.countP_eq_zero]
        intro r hr
        intro hcon
        have hrn : r.id = n := of_decide_eq_true hcon
        refine absurd ?_ h.1
        rw [hbn, ← hrn]
        exact List.mem_map_of_mem (fun r => r.id) hr
      rw [hzero]
      simp

/-- With pairwise distinct ids, `find?` by a member's id returns exactly
that member. -/
theorem find?_id_nodup {l : List LRecord}
    (hnd : (l.map (fun r => r.id)).Nodup) {y : LRecord} (hy : y ∈ l) :
    l.find? (fun r => decide (r.id = y.id)) = some y := by
  induction l with
  | nil => simp at hy
  | cons b t ih =>
    rw [List.map_cons, List.nodup_cons] at hnd
    rw [List.find?_cons]
    rcases List.mem_cons.mp hy with rfl | hy
    · simp
    · have hby : b.id ≠ y.id := by
        intro hc
        exact hnd.1 (hc ▸ List.mem_map_of_mem (fun r => r.id) hy)
      rw [decide_eq_false hby]
      exact ih hnd.2 hy

/-- Every member of a list has a tagged position. -/
theorem exists_tag_of_mem {l : List α} {r : α} (h : r ∈ l) :
    ∀ n, ∃ i, (i, r) ∈ tagIdx n l := by
  induction l with
  | nil => simp at h
  | cons b t ih =>
    intro n
    rcases List.mem_cons.mp h with rfl | h
    · exact ⟨n, List.mem_cons_self _ _⟩
    · obtain ⟨i, hi⟩ := ih h (n + 1)
      exact ⟨i, List.mem_cons_of_mem _ hi⟩

/-- In a duplicate-free list, each element has a unique tagged position. -/
theorem tag_unique_of_nodup {l : List α} (h : l.Nodup) {r : α} :
    ∀ {n i j}, (i, r) ∈ tagIdx n l → (j, r) ∈ tagIdx n l → i = j := by
  induction l with
  | nil => intro n i j hi; simp at hi
  | cons b t ih =>
    intro n i j hi hj
    rw [List.nodup_cons] at h
    rcases List.mem_cons.mp hi with hib | hit <;>
      rcases List.mem_cons.mp hj with hjb | hjt
    · rw [(Prod.mk.injEq _ _ _ _).mp hib |>.1, (Prod.mk.injEq _ _ _ _).mp hjb |>.1]
    · have hmem : r ∈ t := snd_mem_of_mem_tagIdx hjt
      have hrb : r = b := ((Prod.mk.injEq _ _ _ _).mp hib).2
      exact absurd (hrb ▸ hmem) h.1
    · have hmem : r ∈ t := snd_mem_of_mem_tagIdx hit
      have hrb : r = b := ((Prod.mk.injEq _ _ _ _).mp hjb).2
      exact absurd (hrb ▸ hmem) h.1
    · exact ih h.2 hit hjt

/-- Pointwise-equal predicates count equally. -/
theorem countP_ext {l : List α} {p q : α → Bool}
    (h : ∀ a ∈ l, p a = q a) : l.countP p = l.countP q := by
  induction l with
  | nil => rfl
  | cons b t ih =>
    rw [List.countP_cons, List.countP_cons, h b (List.mem_cons_self b t),
      ih (fun a ha => h a (List.mem_cons_of_mem _ ha))]

/-- Cosine distance to the query is nonnegative in a store of unit
embeddings. -/
theorem cosDist_nonneg {e : Vec} (hq : dot e e = 1) {l : List LRecord}
    (hunit : ∀ r ∈ l, ∀ v, r.embedding = some v → dot v v = 1)
    {r : LRecord} (hr : r ∈ l) : 0 ≤ cosDist e r := by
  unfold cosDist computeSimilarity
  cases hemb : r.embedding with
  | none => norm_num
  | some v =>
    have := dot_le_one hq (hunit r hr v hemb)
    simp only []
    linarith

/-- Distance zero is similarity one. -/
theorem dist_zero_iff {e : Vec} {r : LRecord} :
    cosDist e r = 0 ↔ computeSimilarity e r.embedding = 1 := by
  unfold cosDist
  constructor <;> intro h <;> linarith

/-- Index entries come from the record table. -/
theorem mem_records_of_mem_entries {l : List LRecord} {z : ℕ × LRecord}
    (h : z ∈ entries l) : z.2 ∈ l :=
  List.mem_of_mem_filter (snd_mem_of_mem_tagIdx h)

/-- Appending a record with a present embedding appends its index entry. -/
theorem entries_append_singleton (l : List LRecord) (X : LRecord)
    (hX : X.embedding.isSome = true) :
    entries (l ++ [X]) =
      entries l ++ [((l.filter (fun r => r.embedding.isSome)).length, X)] := by
  unfold entries
  rw [List.filter_append, tagIdx_append]
  simp [hX]

/-- A row rewrite that preserves embedding presence maps the index entries
pointwise, keeping every position. -/
theorem entries_map_of_presence {l : List LRecord} {f : LRecord → LRecord}
    (hf : ∀ r ∈ l, (f r).embedding.isSome = r.embedding.isSome) :
    entries (l.map f) = (entries l).map (Prod.map id f) := by
  unfold entries
  rw [List.filter_map]
  have hcongr : l.filter ((fun r => r.embedding.isSome) ∘ f) =
      l.filter (fun r => r.embedding.isSome) :=
    List.filter_congr (fun r hr => by simpa [Function.comp] using hf r hr)
  rw [hcongr, tagIdx_map]

/-- The dedup candidate list is the row part of the project/kind-filtered
top-k entry list. -/
theorem dedupCandidates_eq_map (s : LStore) (e : Vec) (proj : ℕ)
    (kind : String) :
    dedupCandidates s e proj kind = ((vectorTopK e 5 s.records).filter
      (fun z => decide (z.2.project_id = proj) &&
        decide (z.2.kind = kind))).map Prod.snd := by
  unfold dedupCandidates vectorTopKRecs
  rw [List.filter_map]
  rfl

/-- The number of zero-distance index entries is at most the number of
similarity-one records. -/
theorem countP_zero_dist_entries_le (e : Vec) (l : List LRecord) :
    (entries l).countP (fun z => decide (cosDist e z.2 = 0)) ≤
      l.countP (fun r => decide (computeSimilarity e r.embedding = 1)) := by
  unfold entries
  have h1 : (tagIdx 0 (l.filter (fun r => r.embedding.isSome))).countP
      (fun z => decide (cosDist e z.2 = 0)) =
      (l.filter (fun r => r.embedding.isSome)).countP
        (fun r => decide (cosDist e r = 0)) :=
    countP_tagIdx 0 _ (fun r => decide (cosDist e r = 0))
  rw [h1, List.countP_filter]
  apply List.countP_mono_left
  intro r _ h
  rw [Bool.and_eq_true] at h
  exact decide_eq_true (dist_zero_iff.mp (of_decide_eq_true h.1))

/-- A zero-distance entry is among the first five of the index scan when
at most five records are at similarity one. -/
theorem zero_dist_entry_mem_topK {e : Vec} {s : LStore}
    (hq : dot e e = 1)
    (hunit : ∀ r ∈ s.records, ∀ v, r.embedding = some v → dot v v = 1)
    (hcount : s.records.countP
      (fun r => decide (computeSimilarity e r.embedding = 1)) ≤ 5)
    {X : ℕ × LRecord} (hX : X ∈ entries s.records)
    (hXdist : cosDist e X.2 = 0) :
    X ∈ vectorTopK e 5 s.records := by
  unfold vectorTopK
  apply mem_take_of_countP_lt (pairwise_candLt_sortedEntries e s.records)
    ((perm_sortedEntries e s.records).mem_iff.mpr hX)
  rw [(perm_sortedEntries e s.records).countP_eq]
  have hstep : (entries s.records).countP
      (fun z => decide (candLt e z X)) + 1 ≤
      (entries s.records).countP (fun z => decide (cosDist e z.2 = 0)) := by
    apply countP_succ_le_of_mem hX (decide_eq_true hXdist)
      (decide_eq_false (fun h => candLt_asymm h h))
    intro z hz hlt
    have hlt2 := of_decide_eq_true hlt
    have hz0 : 0 ≤ cosDist e z.2 :=
      cosDist_nonneg hq hunit (mem_records_of_mem_entries hz)
    rcases hlt2 with hlt2 | ⟨hlt2, _⟩
    · rw [hXdist] at hlt2
      linarith
    · exact decide_eq_true (hXdist ▸ hlt2)
  have := countP_zero_dist_entries_le e s.records
  omega

/-- If the index holds at most five similarity-one rows, entry `X` sits at
distance zero, matches the requested project and kind, and no matching
zero-distance entry precedes it, then the dedup scan of upsert finds
exactly `X`'s row. -/
theorem dedup_find_zero_first {e : Vec} {s : LStore} {proj : ℕ}
    {kind : String}
    (hq : dot e e = 1)
    (hunit : ∀ r ∈ s.records, ∀ v, r.embedding = some v → dot v v = 1)
    (hcount : s.records.countP
      (fun r => decide (computeSimilarity e r.embedding = 1)) ≤ 5)
    {X : ℕ × LRecord} (hX : X ∈ entries s.records)
    (hXsim : computeSimilarity e X.2.embedding = 1)
    (hXproj : X.2.project_id = proj) (hXkind : X.2.kind = kind)
    (hmin : ∀ z ∈ entries s.records, computeSimilarity e z.2.embedding = 1 →
      z.1 < X.1 → ¬(z.2.project_id = proj ∧ z.2.kind = kind)) :
    (dedupCandidates s e proj kind).find?
      (fun r => decide ((17 : ℚ)/20 ≤ computeSimilarity e r.embedding)) =
      some X.2 := by
  rw [dedupCandidates_eq_map, find?_comp_map]
  have hXdist : cosDist e X.2 = 0 := dist_zero_iff.mpr hXsim
  have hXtop : X ∈ vectorTopK e 5 s.records :=
    zero_dist_entry_mem_topK hq hunit hcount hX hXdist
  have hXfil : X ∈ (vectorTopK e 5 s.records).filter
      (fun z => decide (z.2.project_id = proj) &&
        decide (z.2.kind = kind)) := by
    rw [List.mem_filter]
    exact ⟨hXtop, by simp [hXproj, hXkind]⟩
  have hpw : ((vectorTopK e 5 s.records).filter
      (fun z => decide (z.2.project_id = proj) &&
        decide (z.2.kind = kind))).Pairwise (candLt e) :=
    List.Pairwise.sublist
      ((List.filter_sublist _).trans (List.take_sublist _ _))
      (pairwise_candLt_sortedEntries e s.records)
  have hfind := find?_eq_some_first
    (p := fun z => decide ((17 : ℚ)/20 ≤ computeSimilarity e z.2.embedding))
    hpw hXfil
    (by
      show decide ((17 : ℚ)/20 ≤ computeSimilarity e X.2.embedding) = true
      rw [hXsim]
      norm_num)
    (by
      intro z hz hlt
      exfalso
      have hztop : z ∈ vectorTopK e 5 s.records := List.mem_of_mem_filter hz
      have hzent : z ∈ entries s.records :=
        (perm_sortedEntries e s.records).mem_iff.mp
          (List.take_subset _ _ hztop)
      have hz0 : 0 ≤ cosDist e z.2 :=
        cosDist_nonneg hq hunit (mem_records_of_mem_entries hzent)
      have hzpk := List.of_mem_filter hz
      rw [Bool.and_eq_true] at hzpk
      rcases hlt with hlt | ⟨hlt, hidx⟩
      · rw [hXdist] at hlt
        linarith
      · have hzdist : cosDist e z.2 = 0 := hXdist ▸ hlt
        exact hmin z hzent (dist_zero_iff.mp hzdist) hidx
          ⟨of_decide_eq_true hzpk.1, of_decide_eq_true hzpk.2⟩)
  rw [hfind]
  rfl

/-- Rows returned by the index scan have a present embedding. -/
theorem embedding_isSome_of_mem_topKRecs {e : Vec} {k : ℕ} {l : List LRecord}
    {r : LRecord} (h : r ∈ vectorTopKRecs e k l) : r.embedding.isSome = true := by
  unfold vectorTopKRecs vectorTopK at h
  obtain ⟨z, hz, rfl⟩ := List.mem_map.mp h
  have hz2 : z ∈ entries l :=
    (perm_sortedEntries e l).mem_iff.mp (List.take_subset _ _ hz)
  exact List.of_mem_filter (p := fun r : LRecord => r.embedding.isSome)
    (snd_mem_of_mem_tagIdx hz2)

/-- Evaluation of the no-id upsert when the dedup scan finds row `y` in a
well-formed store: `y` is overwritten in place and returned with its
original identifier. -/
theorem upsertNoId_dedup_eval {s : LStore} {proj : ℕ}
    {kind title body status : String} {e : Vec} {now : ℕ} {y : LRecord}
    (hf : (dedupCandidates s e proj kind).find?
      (fun r => decide ((17 : ℚ)/20 ≤ computeSimilarity e r.embedding)) =
      some y)
    (hy : y ∈ s.records)
    (hnd : (s.records.map (fun r => r.id)).Nodup)
    (hkinds : ∀ r ∈ s.records, validKind r.kind = true)
    (hstatus : validStatus status = true)
    {p : Project} (hp : lookupProject s y.project_id = some p) :
    LibsqlAdapter.upsertNoId s proj kind title body status e now =
      (.ok (some
        { id := y.id, project_id := y.project_id, kind := y.kind,
          title := title, body := body, status := status,
          created_at := y.created_at, updated_at := now, project := p.name }),
       { s with records := s.records.map (fun r =>
          if decide (r.id = y.id) then
            dedupOverwrite title body status e now r else r) }) := by
  unfold LibsqlAdapter.upsertNoId
  rw [hf]
  dsimp only
  have hok : sqlUpdate (fun r => decide (r.id = y.id))
      (dedupOverwrite title body status e now) s.records =
      .ok (s.records.map (fun r => if decide (r.id = y.id) then
        dedupOverwrite title body status e now r else r)) := by
    apply sqlUpdate_ok
    intro r hr _
    simp [checkRow, dedupOverwrite, hkinds r hr, hstatus]
  rw [hok]
  dsimp only
  have hupd_id : ∀ r : LRecord,
      (if decide (r.id = y.id) then dedupOverwrite title body status e now r
       else r).id = r.id := by
    intro r
    by_cases h : r.id = y.id <;> simp [h, dedupOverwrite]
  have hfind2 : (s.records.map (fun r => if decide (r.id = y.id) then
      dedupOverwrite title body status e now r else r)).find?
      (fun r => decide (r.id = y.id)) =
      some (dedupOverwrite title body status e now y) := by
    rw [find?_comp_map]
    have hcongr : s.records.find? (fun a =>
        decide ((if decide (a.id = y.id) then
          dedupOverwrite title body status e now a else a).id = y.id)) =
        s.records.find? (fun a => decide (a.id = y.id)) := by
      congr 1
      funext a
      rw [hupd_id a]
    rw [hcongr, find?_id_nodup hnd hy]
    simp
  have hget : LibsqlAdapter.get { s with records := s.records.map (fun r =>
      if decide (r.id = y.id) then dedupOverwrite title body status e now r
      else r) } y.id =
      some
        { id := y.id, project_id := y.project_id, kind := y.kind,
          title := title, body := body, status := status,
          created_at := y.created_at, updated_at := now,
          project := p.name } := by
    unfold LibsqlAdapter.get
    rw [hfind2]
    dsimp only
    have hp2 : lookupProject { s with records := s.records.map (fun r =>
        if decide (r.id = y.id) then dedupOverwrite title body status e now r
        else r) } (dedupOverwrite title body status e now y).project_id =
        some p := hp
    rw [hp2]
    rfl
  rw [hget]

/-- Evaluation of the no-id upsert when the dedup scan finds nothing: a
fresh row is inserted under the next identifier and returned. -/
theorem upsertNoId_insert_eval {s : LStore} {proj : ℕ}
    {kind title body status : String} {e : Vec} {now : ℕ}
    (hf : (dedupCandidates s e proj kind).find?
      (fun r => decide ((17 : ℚ)/20 ≤ computeSimilarity e r.embedding)) =
      none)
    (hkind : validKind kind = true) (hstatus : validStatus status = true)
    (hbound : ∀ r ∈ s.records, r.id < s.nextId)
    {p : Project} (hp : lookupProject s proj = some p) :
    LibsqlAdapter.upsertNoId s proj kind title body status e now =
      (.ok (some
        { id := s.nextId, project_id := proj, kind := kind,
          title := title, body := body, status := status,
          created_at := now, updated_at := now, project := p.name }),
       { s with
         records := (s.records ++
           [lNewRecord s.nextId proj kind title body status e now]),
         nextId := s.nextId + 1 }) := by
  unfold LibsqlAdapter.upsertNoId
  rw [hf]
  dsimp only
  have hins : sqlInsert (lNewRecord s.nextId proj kind title body status e
      now) s.records = .ok (s.records ++
      [lNewRecord s.nextId proj kind title body status e now]) := by
    unfold sqlInsert checkRow lNewRecord
    simp [hkind, hstatus]
  rw [hins]
  dsimp only
  have hfind2 : (s.records ++
      [lNewRecord s.nextId proj kind title body status e now]).find?
      (fun r => decide (r.id = s.nextId)) =
      some (lNewRecord s.nextId proj kind title body status e now) := by
    rw [List.find?_append]
    have h1 : s.records.find? (fun r => decide (r.id = s.nextId)) = none := by
      rw [List.find?_eq_none]
      intro r hr
      simp only [decide_eq_true_eq]
      exact Nat.ne_of_lt (hbound r hr)
    rw [h1]
    simp [lNewRecord]
  have hget : LibsqlAdapter.get { s with
      records := (s.records ++
        [lNewRecord s.nextId proj kind title body status e now]),
      nextId := s.nextId + 1 } s.nextId =
      some
        { id := s.nextId, project_id := proj, kind := kind,
          title := title, body := body, status := status,
          created_at := now, updated_at := now, project := p.name } := by
    unfold LibsqlAdapter.get
    rw [hfind2]
    dsimp only
    have hp2 : lookupProject { s with
        records := (s.records ++
          [lNewRecord s.nextId proj kind title body status e now]),
        nextId := s.nextId + 1 }
        (lNewRecord s.nextId proj kind title body status e now).project_id =
        some p := hp
    rw [hp2]
    rfl
  rw [show (lNewRecord s.nextId proj kind title body status e now).id =
    s.nextId from rfl]
  rw [hget]

/-- Combined dedup evaluation: when a similarity-one row of the requested
project and kind has no matching zero-distance row before it, and at most
five rows sit at similarity one, the no-id upsert overwrites exactly that
row and returns its identifier. -/
theorem upsert_second_call (s1 : LStore) (proj : ℕ)
    (kind title2 body2 status2 : String) (e : Vec) (t2 : ℕ)
    (hq : dot e e = 1)
    (hunit1 : ∀ r ∈ s1.records, ∀ v, r.embedding = some v → dot v v = 1)
    (hcount1 : s1.records.countP
      (fun r => decide (computeSimilarity e r.embedding = 1)) ≤ 5)
    (hnd1 : (s1.records.map (fun r => r.id)).Nodup)
    (hkinds1 : ∀ r ∈ s1.records, validKind r.kind = true)
    (hst2 : validStatus status2 = true)
    {X : ℕ × LRecord} (hX : X ∈ entries s1.records)
    (hXsim : computeSimilarity e X.2.embedding = 1)
    (hXproj : X.2.project_id = proj) (hXkind : X.2.kind = kind)
    (hmin : ∀ z ∈ entries s1.records, computeSimilarity e z.2.embedding = 1 →
      z.1 < X.1 → ¬(z.2.project_id = proj ∧ z.2.kind = kind))
    {p : Project} (hp : lookupProject s1 X.2.project_id = some p) :
    LibsqlAdapter.upsertNoId s1 proj kind title2 body2 status2 e t2 =
      (.ok (some
        { id := X.2.id, project_id := X.2.project_id, kind := X.2.kind,
          title := title2, body := body2, status := status2,
          created_at := X.2.created_at, updated_at := t2,
          project := p.name }),
       { s1 with records := s1.records.map (fun r =>
          if decide (r.id = X.2.id) then
            dedupOverwrite title2 body2 status2 e t2 r else r) }) := by
  have hf2 := dedup_find_zero_first hq hunit1 hcount1 hX hXsim hXproj hXkind
    hmin
  exact upsertNoId_dedup_eval hf2 (mem_records_of_mem_entries hX) hnd1
    hkinds1 hst2 hp

/-- C1 (amended): storing the same content twice via upsert (same unit
embedding, no explicit id, same project and kind) keeps a single record —
PROVIDED at most four stored rows sit at similarity exactly 1 to the
embedding.  The first call returns a record; the second call returns a
record with the SAME identifier, carrying the second call's title, body
and status, and the table does not grow.  Without the crowding bound the
k=5 candidate scan can hide the first row (see the counterexample). -/
theorem C1_upsert_twice_dedups (s : LStore) (cur : Project)
    (projectId? : Option ℕ)
    (kind title1 body1 status1 title2 body2 status2 : String)
    (e : Vec) (t1 t2 : ℕ)
    (hq : dot e e = 1)
    (hunit : ∀ r ∈ s.records, ∀ v, r.embedding = some v → dot v v = 1)
    (hcrowd : s.records.countP
      (fun r => decide (computeSimilarity e r.embedding = 1)) ≤ 4)
    (hnd : (s.records.map (fun r => r.id)).Nodup)
    (hbound : ∀ r ∈ s.records, r.id < s.nextId)
    (hkind : validKind kind = true)
    (hkinds : ∀ r ∈ s.records, validKind r.kind = true)
    (hst1 : validStatus status1 = true)
    (hst2 : validStatus status2 = true)
    {p : Project}
    (hproj : lookupProject s (projectId?.getD cur.id) = some p) :
    ∃ out1 out2 : RecordOut,
      (LibsqlAdapter.upsert s cur none projectId? kind title1 body1 status1
        e t1).1 = .ok (some out1) ∧
      (LibsqlAdapter.upsert (LibsqlAdapter.upsert s cur none projectId?
        kind title1 body1 status1 e t1).2 cur none projectId? kind title2
        body2 status2 e t2).1 = .ok (some out2) ∧
      out2.id = out1.id ∧ out2.title = title2 ∧ out2.body = body2 ∧
      out2.status = status2 ∧
      (LibsqlAdapter.upsert (LibsqlAdapter.upsert s cur none projectId?
        kind title1 body1 status1 e t1).2 cur none projectId? kind title2
        body2 status2 e t2).2.records.length =
        (LibsqlAdapter.upsert s cur none projectId? kind title1 body1
          status1 e t1).2.records.length := by
  have key1 : LibsqlAdapter.upsert s cur none projectId? kind title1 body1
      status1 e t1 = LibsqlAdapter.upsertNoId s (projectId?.getD cur.id)
      kind title1 body1 status1 e t1 := rfl
  rw [key1]
  cases hf1 : (dedupCandidates s e (projectId?.getD cur.id) kind).find?
      (fun r => decide ((17 : ℚ)/20 ≤ computeSimilarity e r.embedding)) with
  | some y =>
    have hymem := List.mem_of_find?_eq_some hf1
    obtain ⟨hys, hyproj, hykind⟩ := dedupCandidates_props hymem
    have hpy : lookupProject s y.project_id = some p := by
      rw [hyproj]; exact hproj
    have heval1 := @upsertNoId_dedup_eval s (projectId?.getD cur.id) kind
      title1 body1 status1 e t1 y hf1 hys hnd hkinds hst1 p hpy
    rw [heval1]
    dsimp only
    have hytop : y ∈ vectorTopKRecs e 5 s.records := by
      have h := hymem
      unfold dedupCandidates at h
      exact List.mem_of_mem_filter h
    have hysome : y.embedding.isSome = true :=
      embedding_isSome_of_mem_topKRecs hytop
    have hpres : ∀ r ∈ s.records,
        ((fun r => if decide (r.id = y.id) then
          dedupOverwrite title1 body1 status1 e t1 r else r)
          r).embedding.isSome = r.embedding.isSome := by
      intro r hr
      by_cases hid : r.id = y.id
      · have hry : r = y := id_unique hnd hr hys hid
        subst hry
        simp [dedupOverwrite, hysome]
      · simp [hid]
    have hentries : entries (s.records.map (fun r =>
        if decide (r.id = y.id) then
          dedupOverwrite title1 body1 status1 e t1 r else r)) =
        (entries s.records).map (Prod.map id (fun r =>
          if decide (r.id = y.id) then
            dedupOverwrite title1 body1 status1 e t1 r else r)) :=
      entries_map_of_presence hpres
    have hf1' := hf1
    rw [dedupCandidates_eq_map, find?_comp_map] at hf1'
    obtain ⟨Ye, hYefind, hYe2⟩ := Option.map_eq_some'.mp hf1'
    obtain ⟨iY, yr⟩ := Ye
    dsimp only at hYe2
    rw [hYe2] at hYefind
    have hYemem := List.mem_of_find?_eq_some hYefind
    have hYetop : ((iY, y) : ℕ × LRecord) ∈ vectorTopK e 5 s.records :=
      List.mem_of_mem_filter hYemem
    have hYeent : ((iY, y) : ℕ × LRecord) ∈ entries s.records :=
      (perm_sortedEntries e s.records).mem_iff.mp
        (List.take_subset _ _ hYetop)
    have hXmem : ((iY, dedupOverwrite title1 body1 status1 e t1 y) :
        ℕ × LRecord) ∈ entries (s.records.map (fun r =>
          if decide (r.id = y.id) then
            dedupOverwrite title1 body1 status1 e t1 r else r)) := by
      rw [hentries]
      have himg := List.mem_map_of_mem (Prod.map id (fun r =>
        if decide (r.id = y.id) then
          dedupOverwrite title1 body1 status1 e t1 r else r)) hYeent
      simpa [Prod.map] using himg
    have hnodupf : (s.records.filter
        (fun r => r.embedding.isSome)).Nodup :=
      List.Nodup.filter _ (List.Nodup.of_map (fun r => r.id) hnd)
    have hmin1 : ∀ z ∈ entries (s.records.map (fun r =>
        if decide (r.id = y.id) then
          dedupOverwrite title1 body1 status1 e t1 r else r)),
        computeSimilarity e z.2.embedding = 1 → z.1 < iY →
        ¬(z.2.project_id = projectId?.getD cur.id ∧ z.2.kind = kind) := by
      intro z hz hzsim hzlt hzmatch
      rw [hentries] at hz
      obtain ⟨z0, hz0ent, hz0eq⟩ := List.mem_map.mp hz
      obtain ⟨j, zr⟩ := z0
      subst hz0eq
      simp only [Prod.map, id_eq] at hzsim hzlt hzmatch
      by_cases hzid : zr.id = y.id
      · have hzy : zr = y :=
          id_unique hnd (mem_records_of_mem_entries hz0ent) hys hzid
        subst hzy
        have hjy : j = iY := tag_unique_of_nodup hnodupf hz0ent hYeent
        omega
      · simp only [decide_eq_false hzid, Bool.false_eq_true, if_false]
          at hzsim hzmatch
        have hzdist : cosDist e zr = 0 := dist_zero_iff.mpr hzsim
        have hztop : ((j, zr) : ℕ × LRecord) ∈ vectorTopK e 5 s.records :=
          zero_dist_entry_mem_topK hq hunit (le_trans hcrowd (by norm_num))
            hz0ent hzdist
        have hzfil : ((j, zr) : ℕ × LRecord) ∈
            (vectorTopK e 5 s.records).filter
              (fun z => decide (z.2.project_id = projectId?.getD cur.id) &&
                decide (z.2.kind = kind)) := by
          rw [List.mem_filter]
          exact ⟨hztop, by simp [hzmatch.1, hzmatch.2]⟩
        have hpw : ((vectorTopK e 5 s.records).filter
            (fun z => decide (z.2.project_id = projectId?.getD cur.id) &&
              decide (z.2.kind = kind))).Pairwise (candLt e) :=
          List.Pairwise.sublist
            ((List.filter_sublist _).trans (List.take_sublist _ _))
            (pairwise_candLt_sortedEntries e s.records)
        have hclt : candLt e (j, zr) (iY, y) := by
          have hy0 : 0 ≤ cosDist e y := cosDist_nonneg hq hunit hys
          rcases eq_or_lt_of_le hy0 with h0 | h0
          · exact Or.inr ⟨by rw [hzdist, ← h0], hzlt⟩
          · exact Or.inl (by rw [hzdist]; exact h0)
        have hzfalse := find?_none_below hpw hYefind (j, zr) hzfil hclt
        simp only [hzsim] at hzfalse
        have hle : (17 : ℚ)/20 ≤ (1 : ℚ) := by norm_num
        rw [decide_eq_true hle] at hzfalse
        exact Bool.noConfusion hzfalse
    have hunit1 : ∀ r ∈ s.records.map (fun r =>
        if decide (r.id = y.id) then
          dedupOverwrite title1 body1 status1 e t1 r else r),
        ∀ v, r.embedding = some v → dot v v = 1 := by
      intro r hr v hv
      obtain ⟨r0, hr0, rfl⟩ := List.mem_map.mp hr
      by_cases hid : r0.id = y.id
      · simp only [decide_eq_true hid, if_true, dedupOverwrite] at hv
        have hv2 : some e = some v := hv
        rw [← Option.some.inj hv2]
        exact hq
      · simp only [decide_eq_false hid, Bool.false_eq_true, if_false] at hv
        exact hunit r0 hr0 v hv
    have hcount1 : (s.records.map (fun r =>
        if decide (r.id = y.id) then
          dedupOverwrite title1 body1 status1 e t1 r else r)).countP
        (fun r => decide (computeSimilarity e r.embedding = 1)) ≤ 5 := by
      have hmap : (s.records.map (fun r =>
          if decide (r.id = y.id) then
            dedupOverwrite title1 body1 status1 e t1 r else r)).countP
          (fun r => decide (computeSimilarity e r.embedding = 1)) =
          s.records.countP (fun a =>
            decide (computeSimilarity e ((if decide (a.id = y.id) then
              dedupOverwrite title1 body1 status1 e t1 a else
                a)).embedding = 1)) :=
        List.countP_map _ _ _
      rw [hmap]
      have h1 : s.records.countP (fun a =>
          decide (computeSimilarity e ((if decide (a.id = y.id) then
            dedupOverwrite title1 body1 status1 e t1 a else
              a)).embedding = 1)) ≤
          s.records.countP (fun r =>
            decide (computeSimilarity e r.embedding = 1) ||
              decide (r.id = y.id)) := by
        apply List.countP_mono_left
        intro r _ h
        by_cases hid : r.id = y.id
        · simp [hid]
        · simp only [decide_eq_false hid, Bool.false_eq_true, if_false] at h
          simp [h]
      have h2 := countP_or_le
        (fun r => decide (computeSimilarity e r.embedding = 1))
        (fun r : LRecord => decide (r.id = y.id)) s.records
      have h3 := countP_id_le_one hnd y.id
      omega
    have hids1 : ((s.records.map (fun r =>
        if decide (r.id = y.id) then
          dedupOverwrite title1 body1 status1 e t1 r else r)).map
        (fun r => r.id)) = s.records.map (fun r => r.id) := by
      rw [List.map_map]
      apply List.map_congr_left
      intro r _
      simp only [Function.comp]
      by_cases hid : r.id = y.id
      · simp [hid, dedupOverwrite]
      · simp [hid]
    have hnd1 : ((s.records.map (fun r =>
        if decide (r.id = y.id) then
          dedupOverwrite title1 body1 status1 e t1 r else r)).map
        (fun r => r.id)).Nodup := by
      rw [hids1]; exact hnd
    have hkinds1 : ∀ r ∈ s.records.map (fun r =>
        if decide (r.id = y.id) then
          dedupOverwrite title1 body1 status1 e t1 r else r),
        validKind r.kind = true := by
      intro r hr
      obtain ⟨r0, hr0, rfl⟩ := List.mem_map.mp hr
      by_cases hid : r0.id = y.id
      · simp only [decide_eq_true hid, if_true]
        exact hkinds r0 hr0
      · simp only [decide_eq_false hid, Bool.false_eq_true, if_false]
        exact hkinds r0 hr0
    have hXsim : computeSimilarity e
        (dedupOverwrite title1 body1 status1 e t1 y).embedding = 1 := hq
    have hp1 : lookupProject { s with records := s.records.map (fun r =>
        if decide (r.id = y.id) then
          dedupOverwrite title1 body1 status1 e t1 r else r) }
        (dedupOverwrite title1 body1 status1 e t1 y).project_id =
        some p := hpy
    have heval2 := upsert_second_call
      { s with records := s.records.map (fun r =>
        if decide (r.id = y.id) then
          dedupOverwrite title1 body1 status1 e t1 r else r) }
      (projectId?.getD cur.id) kind title2 body2 status2 e t2 hq hunit1
      hcount1 hnd1 hkinds1 hst2 hXmem hXsim hyproj hykind hmin1 hp1
    refine ⟨_, _, rfl, congrArg Prod.fst heval2, rfl, rfl, rfl, rfl, ?_⟩
    have hlen := congrArg (fun q =>
      (q : Except String (Option RecordOut) × LStore).2.records.length) heval2
    refine hlen.trans ?_
    simp
  | none =>
    have heval1 := @upsertNoId_insert_eval s (projectId?.getD cur.id) kind
      title1 body1 status1 e t1 hf1 hkind hst1 hbound p hproj
    rw [heval1]
    dsimp only
    have hNsome : (lNewRecord s.nextId (projectId?.getD cur.id) kind title1
        body1 status1 e t1).embedding.isSome = true := rfl
    have hentries1 : entries (s.records ++
        [lNewRecord s.nextId (projectId?.getD cur.id) kind title1 body1
          status1 e t1]) =
        entries s.records ++
        [((s.records.filter (fun r => r.embedding.isSome)).length,
          lNewRecord s.nextId (projectId?.getD cur.id) kind title1 body1
            status1 e t1)] :=
      entries_append_singleton _ _ hNsome
    have hnd1 : ((s.records ++
        [lNewRecord s.nextId (projectId?.getD cur.id) kind title1 body1
          status1 e t1]).map (fun r => r.id)).Nodup := by
      rw [List.map_append, List.nodup_append]
      refine ⟨hnd, List.nodup_singleton _, ?_⟩
      intro a ha hb
      obtain ⟨r, hr, rfl⟩ := List.mem_map.mp ha
      simp only [List.map_cons, List.map_nil, List.mem_singleton] at hb
      have hlt := hbound r hr
      rw [show (lNewRecord s.nextId (projectId?.getD cur.id) kind title1
        body1 status1 e t1).id = s.nextId from rfl] at hb
      omega
    have hunit1 : ∀ r ∈ s.records ++
        [lNewRecord s.nextId (projectId?.getD cur.id) kind title1 body1
          status1 e t1], ∀ v, r.embedding = some v → dot v v = 1 := by
      intro r hr v hv
      rcases List.mem_append.mp hr with hr | hr
      · exact hunit r hr v hv
      · rw [List.mem_singleton] at hr
        subst hr
        have hv2 : some e = some v := hv
        rw [← Option.some.inj hv2]
        exact hq
    have hcount1 : (s.records ++
        [lNewRecord s.nextId (projectId?.getD cur.id) kind title1 body1
          status1 e t1]).countP
        (fun r => decide (computeSimilarity e r.embedding = 1)) ≤ 5 := by
      rw [List.countP_append]
      have hone := List.countP_le_length
        (fun r => decide (computeSimilarity e r.embedding = 1))
        (l := [lNewRecord s.nextId (projectId?.getD cur.id) kind title1
          body1 status1 e t1])
      simp only [List.length_singleton] at hone
      omega
    have hkinds1 : ∀ r ∈ s.records ++
        [lNewRecord s.nextId (projectId?.getD cur.id) kind title1 body1
          status1 e t1], validKind r.kind = true := by
      intro r hr
      rcases List.mem_append.mp hr with hr | hr
      · exact hkinds r hr
      · rw [List.mem_singleton] at hr
        subst hr
        exact hkind
    have hmin1 : ∀ z ∈ entries (s.records ++
        [lNewRecord s.nextId (projectId?.getD cur.id) kind title1 body1
          status1 e t1]),
        computeSimilarity e z.2.embedding = 1 →
        z.1 < (s.records.filter (fun r => r.embedding.isSome)).length →
        ¬(z.2.project_id = projectId?.getD cur.id ∧ z.2.kind = kind) := by
      intro z hz hzsim hzlt hzmatch
      rw [hentries1] at hz
      rcases List.mem_append.mp hz with hz | hz
      · have hzdist : cosDist e z.2 = 0 := dist_zero_iff.mpr hzsim
        have hztop : z ∈ vectorTopK e 5 s.records :=
          zero_dist_entry_mem_topK hq hunit (le_trans hcrowd (by norm_num))
            hz hzdist
        have hzrec : z.2 ∈ vectorTopKRecs e 5 s.records :=
          List.mem_map_of_mem Prod.snd hztop
        have hzcand : z.2 ∈ dedupCandidates s e (projectId?.getD cur.id)
            kind := by
          unfold dedupCandidates
          rw [List.mem_filter]
          exact ⟨hzrec, by simp [hzmatch.1, hzmatch.2]⟩
        have hnone := List.find?_eq_none.mp hf1 z.2 hzcand
        apply hnone
        show decide ((17 : ℚ)/20 ≤ computeSimilarity e z.2.embedding) = true
        rw [hzsim]
        norm_num
      · rw [List.mem_singleton] at hz
        rw [hz] at hzlt
        simp at hzlt
    have hXmem : (((s.records.filter
        (fun r => r.embedding.isSome)).length,
        lNewRecord s.nextId (projectId?.getD cur.id) kind title1 body1
          status1 e t1) : ℕ × LRecord) ∈ entries (s.records ++
        [lNewRecord s.nextId (projectId?.getD cur.id) kind title1 body1
          status1 e t1]) := by
      rw [hentries1]
      exact List.mem_append_right _ (List.mem_singleton.mpr rfl)
    have hXsim : computeSimilarity e
        (lNewRecord s.nextId (projectId?.getD cur.id) kind title1 body1
          status1 e t1).embedding = 1 := hq
    have hp1 : lookupProject { s with
        records := (s.records ++
          [lNewRecord s.nextId (projectId?.getD cur.id) kind title1 body1
            status1 e t1]),
        nextId := s.nextId + 1 }
        (lNewRecord s.nextId (projectId?.getD cur.id) kind title1 body1
          status1 e t1).project_id = some p := hproj
    have heval2 := upsert_second_call
      { s with
        records := (s.records ++
          [lNewRecord s.nextId (projectId?.getD cur.id) kind title1 body1
            status1 e t1]),
        nextId := s.nextId + 1 }
      (projectId?.getD cur.id) kind title2 body2 status2 e t2 hq hunit1
      hcount1 hnd1 hkinds1 hst2 hXmem hXsim rfl rfl hmin1 hp1
    refine ⟨_, _, rfl, congrArg Prod.fst heval2, rfl, rfl, rfl, rfl, ?_⟩
    have hlen := congrArg (fun q =>
      (q : Except String (Option RecordOut) × LStore).2.records.length) heval2
    refine hlen.trans ?_
    simp

/-- C1 counterexample to the unconditional claim: with five foreign rows
sitting at similarity exactly 1 to the embedding, upserting the very same
content into project alpha twice inserts two fresh rows — the k=5
candidate scan never surfaces the first copy, so nothing deduplicates. -/
theorem C1_counterexample_crowded_duplicate :
    (LibsqlAdapter.upsert (LibsqlAdapter.upsert c1Store exProjA none none
      "issue" "t" "b" "open" exV1 8).2 exProjA none none "issue" "t" "b"
      "open" exV1 9).2.records.length = c1Store.records.length + 2 := by
  norm_num [LibsqlAdapter.upsert, LibsqlAdapter.upsertNoId,
    dedupCandidates, vectorTopKRecs, vectorTopK, sortedEntries, entries,
    tagIdx, c1Store, mkLRecord, exProjA, exProjB, exV1, computeSimilarity,
    cosDist, dot, List.insertionSort, List.orderedInsert, candLe,
    sqlInsert, sqlUpdate, checkRow, validKind, validStatus, lNewRecord,
    List.find?, List.filter, LibsqlAdapter.get, lookupProject]

/-- C1 witness: on a store with one current-project record at similarity
0.96 the double upsert genuinely deduplicates — same id, second content
wins, table unchanged. -/
theorem C1_upsert_twice_dedups_witness :
    ∃ out1 out2 : RecordOut,
      (LibsqlAdapter.upsert c6Store exProjA none none "issue" "t1" "b1"
        "open" exV1 8).1 = .ok (some out1) ∧
      (LibsqlAdapter.upsert (LibsqlAdapter.upsert c6Store exProjA none none
        "issue" "t1" "b1" "open" exV1 8).2 exProjA none none "issue" "t2"
        "b2" "resolved" exV1 9).1 = .ok (some out2) ∧
      out2.id = out1.id ∧ out2.title = "t2" ∧ out2.body = "b2" ∧
      out2.status = "resolved" ∧
      (LibsqlAdapter.upsert (LibsqlAdapter.upsert c6Store exProjA none none
        "issue" "t1" "b1" "open" exV1 8).2 exProjA none none "issue" "t2"
        "b2" "resolved" exV1 9).2.records.length =
        (LibsqlAdapter.upsert c6Store exProjA none none "issue" "t1" "b1"
          "open" exV1 8).2.records.length :=
  C1_upsert_twice_dedups c6Store exProjA none "issue" "t1" "b1" "open"
    "t2" "b2" "resolved" exV1 8 9 (p := exProjA)
    (by norm_num [dot, exV1])
    (by
      intro r hr v hv
      simp only [c6Store, List.mem_singleton] at hr
      subst hr
      simp only [mkLRecord] at hv
      rw [← Option.some.inj hv]
      norm_num [dot, exV96])
    (by norm_num [c6Store, mkLRecord, List.countP_cons, List.countP_nil,
      computeSimilarity, dot, exV1, exV96])
    (by simp [c6Store, mkLRecord])
    (by
      intro r hr
      simp only [c6Store, List.mem_singleton] at hr
      subst hr
      norm_num [mkLRecord, c6Store])
    (by decide)
    (by
      intro r hr
      simp only [c6Store, List.mem_singleton] at hr
      subst hr
      decide)
    (by decide)
    (by decide)
    rfl

end Dude
